import Mathlib

/-!
Verification of the Huntarr Sonarr processing modules
(`src/primary/apps/sonarr/api.py`, `missing.py`, `upgrade.py`).

The Python code is shallowly embedded: every external collaborator
(HTTP transport, settings, quota tracker, processed-ID store, stop
signal, random source) is modelled as an explicit oracle argument, and
each Python function becomes a total Lean function over those oracles.
Python exceptions are modelled as values (`Option`/`Except`); blocking
sleeps have no observable effect in the embedding and are omitted.
-/

namespace Huntarr

/-- Result of one `get_command_status` call (api.py, get_command_status):
`failFetch` models the function returning `None` (request exception or
unexpected error), `emptyDict` a successful fetch whose JSON body is the
empty object (falsy in Python), and `record st` a non-empty command
record whose optional `status` field is `st`. -/
inductive CmdStatusRes where
  | failFetch
  | emptyDict
  | record (status : Option String)
deriving DecidableEq, Repr

/-- Terminal statuses recognised by both pollers: `completed`,
`failed`, `aborted`. -/
def isTerminalStatus (st : Option String) : Bool :=
  st = some "completed" || st = some "failed" || st = some "aborted"

/-- Outcomes that the missing-episode poller treats as still pending
(consume one attempt and retry): a failed status fetch, a falsy (empty)
response, or any non-terminal status value. -/
def pendingMissing : CmdStatusRes → Bool
  | .failFetch => true
  | .emptyDict => true
  | .record st => !isTerminalStatus st

/-- Outcomes that the upgrade poller treats as still pending. A failed
status fetch (`None`) is terminal for this poller, but an empty dict is
not (`command_status is None` is false for an empty dict). -/
def pendingUpgrade : CmdStatusRes → Bool
  | .failFetch => false
  | .emptyDict => true
  | .record st => !isTerminalStatus st

/-- Poll loop of `wait_for_command` in missing.py (lines 638-665).
`fetch i` is the result of the status fetch performed on loop iteration
`i`, `stop i` the value of `stop_check()` at iteration `i`, and `fuel`
the number of attempts still available (`max_attempts - attempts`).
Returns the boolean result together with the number of status fetches
performed. A falsy command status (`failFetch` or `emptyDict`) consumes
one attempt and retries; otherwise the `status` field is classified. -/
def waitGoMissing (fetch : Nat → CmdStatusRes) (stop : Nat → Bool) :
    Nat → Nat → Bool × Nat
  | _, 0 => (false, 0)
  | i, f + 1 =>
    if stop i then (false, 0)
    else
      match fetch i with
      | .failFetch =>
        let r := waitGoMissing fetch stop (i + 1) f
        (r.1, r.2 + 1)
      | .emptyDict =>
        let r := waitGoMissing fetch stop (i + 1) f
        (r.1, r.2 + 1)
      | .record st =>
        if st = some "completed" then (true, 1)
        else if st = some "failed" || st = some "aborted" then (false, 1)
        else
          let r := waitGoMissing fetch stop (i + 1) f
          (r.1, r.2 + 1)

/-- Poll loop of `wait_for_command` in upgrade.py (lines 400-429).
Identical to the missing-episode loop except that a status fetch
returning `None` (`failFetch`) returns `False` immediately. An empty
dict is not `None`, so it falls through to the pending branch. -/
def waitGoUpgrade (fetch : Nat → CmdStatusRes) (stop : Nat → Bool) :
    Nat → Nat → Bool × Nat
  | _, 0 => (false, 0)
  | i, f + 1 =>
    if stop i then (false, 0)
    else
      match fetch i with
      | .failFetch => (false, 1)
      | .emptyDict =>
        let r := waitGoUpgrade fetch stop (i + 1) f
        (r.1, r.2 + 1)
      | .record st =>
        if st = some "completed" then (true, 1)
        else if st = some "failed" || st = some "aborted" then (false, 1)
        else
          let r := waitGoUpgrade fetch stop (i + 1) f
          (r.1, r.2 + 1)

/-- Embedding of `wait_for_command` from missing.py (lines 618-665):
degenerate configuration (`wait_delay <= 0 or max_attempts <= 0`)
returns `True` without any status check, otherwise runs the poll loop
for up to `max_attempts` attempts. Result paired with the number of
status fetches performed. -/
def wait_for_command_missing (fetch : Nat → CmdStatusRes) (stop : Nat → Bool)
    (wait_delay max_attempts : Int) : Bool × Nat :=
  if wait_delay ≤ 0 ∨ max_attempts ≤ 0 then (true, 0)
  else waitGoMissing fetch stop 0 max_attempts.toNat

/-- Embedding of `wait_for_command` from upgrade.py (lines 384-429). -/
def wait_for_command_upgrade (fetch : Nat → CmdStatusRes) (stop : Nat → Bool)
    (wait_delay max_attempts : Int) : Bool × Nat :=
  if wait_delay ≤ 0 ∨ max_attempts ≤ 0 then (true, 0)
  else waitGoUpgrade fetch stop 0 max_attempts.toNat

section PollerLemmas

variable (fetch : Nat → CmdStatusRes) (stop : Nat → Bool)

theorem waitGoMissing_pending_step (i : Nat) (f : Nat)
    (hstop : stop i = false) (hp : pendingMissing (fetch i) = true) :
    waitGoMissing fetch stop i (f + 1) =
      ((waitGoMissing fetch stop (i + 1) f).1,
       (waitGoMissing fetch stop (i + 1) f).2 + 1) := by
  cases hf : fetch i with
  | failFetch => simp [waitGoMissing, hstop, hf]
  | emptyDict => simp [waitGoMissing, hstop, hf]
  | record st =>
    have hterm : isTerminalStatus st = false := by
      simpa [pendingMissing, hf] using hp
    have h1 : ¬(st = some "completed") := by
      intro h; simp [isTerminalStatus, h] at hterm
    have h2 : ¬(st = some "failed" || st = some "aborted") = true := by
      intro h
      rcases Bool.or_eq_true_iff.mp h with h | h <;>
        simp [isTerminalStatus, decide_eq_true_eq.mp (by exact_mod_cast h)] at hterm
    simp only [waitGoMissing, hstop, hf, Bool.false_eq_true, if_false]
    rw [if_neg (by simpa using h1), if_neg h2]

theorem waitGoUpgrade_pending_step (i : Nat) (f : Nat)
    (hstop : stop i = false) (hp : pendingUpgrade (fetch i) = true) :
    waitGoUpgrade fetch stop i (f + 1) =
      ((waitGoUpgrade fetch stop (i + 1) f).1,
       (waitGoUpgrade fetch stop (i + 1) f).2 + 1) := by
  cases hf : fetch i with
  | failFetch => simp [pendingUpgrade, hf] at hp
  | emptyDict => simp [waitGoUpgrade, hstop, hf]
  | record st =>
    have hterm : isTerminalStatus st = false := by
      simpa [pendingUpgrade, hf] using hp
    have h1 : ¬(st = some "completed") := by
      intro h; simp [isTerminalStatus, h] at hterm
    have h2 : ¬(st = some "failed" || st = some "aborted") = true := by
      intro h
      rcases Bool.or_eq_true_iff.mp h with h | h <;>
        simp [isTerminalStatus, decide_eq_true_eq.mp (by exact_mod_cast h)] at hterm
    simp only [waitGoUpgrade, hstop, hf, Bool.false_eq_true, if_false]
    rw [if_neg (by simpa using h1), if_neg h2]

theorem waitGoMissing_timeout (f : Nat) :
    ∀ (i : Nat), (∀ j, stop j = false) →
      (∀ j, j < f → pendingMissing (fetch (i + j)) = true) →
      waitGoMissing fetch stop i f = (false, f) := by
  induction f with
  | zero => intro i _ _; rfl
  | succ f ih =>
    intro i hstop hp
    rw [waitGoMissing_pending_step fetch stop i f (hstop i)
      (by simpa using hp 0 (Nat.succ_pos f))]
    rw [ih (i + 1) hstop (fun j hj => by
      have := hp (j + 1) (Nat.succ_lt_succ hj)
      simpa [Nat.add_assoc, Nat.add_comm 1 j] using this)]

theorem waitGoMissing_terminal (f : Nat) :
    ∀ (i k : Nat), (∀ j, stop j = false) → k < f →
      (∀ j, j < k → pendingMissing (fetch (i + j)) = true) →
      ((fetch (i + k) = .record (some "completed") →
          waitGoMissing fetch stop i f = (true, k + 1)) ∧
       (fetch (i + k) = .record (some "failed") ∨
          fetch (i + k) = .record (some "aborted") →
          waitGoMissing fetch stop i f = (false, k + 1))) := by
  induction f with
  | zero => intro i k _ hk; omega
  | succ f ih =>
    intro i k hstop hk hp
    cases k with
    | zero =>
      constructor
      · intro hc
        have hc' : fetch i = .record (some "completed") := by simpa using hc
        simp [waitGoMissing, hstop i, hc']
      · intro hc
        rcases hc with hc | hc <;>
          · have hc' := (by simpa using hc :
              fetch i = CmdStatusRes.record _)
            simp [waitGoMissing, hstop i, hc']
    | succ k =>
      have hpend : pendingMissing (fetch i) = true := by
        simpa using hp 0 (Nat.succ_pos k)
      rw [waitGoMissing_pending_step fetch stop i f (hstop i) hpend]
      have hrec := ih (i + 1) k hstop (by omega) (fun j hj => by
        have := hp (j + 1) (Nat.succ_lt_succ hj)
        simpa [Nat.add_assoc, Nat.add_comm 1 j] using this)
      have hidx : i + 1 + k = i + (k + 1) := by omega
      rw [hidx] at hrec
      constructor
      · intro hc
        rw [hrec.1 hc]
      · intro hc
        rw [hrec.2 hc]

theorem waitGoUpgrade_timeout (f : Nat) :
    ∀ (i : Nat), (∀ j, stop j = false) →
      (∀ j, j < f → pendingUpgrade (fetch (i + j)) = true) →
      waitGoUpgrade fetch stop i f = (false, f) := by
  induction f with
  | zero => intro i _ _; rfl
  | succ f ih =>
    intro i hstop hp
    rw [waitGoUpgrade_pending_step fetch stop i f (hstop i)
      (by simpa using hp 0 (Nat.succ_pos f))]
    rw [ih (i + 1) hstop (fun j hj => by
      have := hp (j + 1) (Nat.succ_lt_succ hj)
      simpa [Nat.add_assoc, Nat.add_comm 1 j] using this)]

theorem waitGoUpgrade_terminal (f : Nat) :
    ∀ (i k : Nat), (∀ j, stop j = false) → k < f →
      (∀ j, j < k → pendingUpgrade (fetch (i + j)) = true) →
      ((fetch (i + k) = .record (some "completed") →
          waitGoUpgrade fetch stop i f = (true, k + 1)) ∧
       (fetch (i + k) = .record (some "failed") ∨
          fetch (i + k) = .record (some "aborted") →
          waitGoUpgrade fetch stop i f = (false, k + 1)) ∧
       (fetch (i + k) = .failFetch →
          waitGoUpgrade fetch stop i f = (false, k + 1))) := by
  induction f with
  | zero => intro i k _ hk; omega
  | succ f ih =>
    intro i k hstop hk hp
    cases k with
    | zero =>
      refine ⟨?_, ?_, ?_⟩
      · intro hc
        have hc' : fetch i = .record (some "completed") := by simpa using hc
        simp [waitGoUpgrade, hstop i, hc']
      · intro hc
        rcases hc with hc | hc <;>
          · have hc' := (by simpa using hc :
              fetch i = CmdStatusRes.record _)
            simp [waitGoUpgrade, hstop i, hc']
      · intro hc
        have hc' : fetch i = .failFetch := by simpa using hc
        simp [waitGoUpgrade, hstop i, hc']
    | succ k =>
      have hpend : pendingUpgrade (fetch i) = true := by
        simpa using hp 0 (Nat.succ_pos k)
      rw [waitGoUpgrade_pending_step fetch stop i f (hstop i) hpend]
      have hrec := ih (i + 1) k hstop (by omega) (fun j hj => by
        have := hp (j + 1) (Nat.succ_lt_succ hj)
        simpa [Nat.add_assoc, Nat.add_comm 1 j] using this)
      have hidx : i + 1 + k = i + (k + 1) := by omega
      rw [hidx] at hrec
      refine ⟨fun hc => by rw [hrec.1 hc], fun hc => by rw [hrec.2.1 hc],
        fun hc => by rw [hrec.2.2 hc]⟩

end PollerLemmas

/-- C2: Command-poller terminal classification. For both embedded
implementations of `wait_for_command`: with `wait_delay > 0` and
`max_attempts > 0` and no stop request, an observed status `completed`
at attempt `k` (all earlier attempts pending) returns `True` having
performed exactly `k+1` status checks; `failed` or `aborted` at attempt
`k` returns `False` with exactly `k+1` checks (no further polling);
pending outcomes at all `max_attempts` attempts return `False` after
exactly `max_attempts` checks (timeout); and `wait_delay <= 0` or
`max_attempts <= 0` returns `True` with zero status checks. -/
theorem C2_wait_for_command_terminal_classification
    (fetch : Nat → CmdStatusRes) (stop : Nat → Bool)
    (wait_delay max_attempts : Int) :
    (wait_delay ≤ 0 ∨ max_attempts ≤ 0 →
      wait_for_command_missing fetch stop wait_delay max_attempts = (true, 0) ∧
      wait_for_command_upgrade fetch stop wait_delay max_attempts = (true, 0)) ∧
    (0 < wait_delay → 0 < max_attempts → (∀ j, stop j = false) →
      (∀ k : Nat, (k : Int) < max_attempts →
        (∀ j, j < k → pendingMissing (fetch j) = true) →
        (fetch k = .record (some "completed") →
          wait_for_command_missing fetch stop wait_delay max_attempts =
            (true, k + 1)) ∧
        (fetch k = .record (some "failed") ∨ fetch k = .record (some "aborted") →
          wait_for_command_missing fetch stop wait_delay max_attempts =
            (false, k + 1))) ∧
      (∀ k : Nat, (k : Int) < max_attempts →
        (∀ j, j < k → pendingUpgrade (fetch j) = true) →
        (fetch k = .record (some "completed") →
          wait_for_command_upgrade fetch stop wait_delay max_attempts =
            (true, k + 1)) ∧
        (fetch k = .record (some "failed") ∨ fetch k = .record (some "aborted") →
          wait_for_command_upgrade fetch stop wait_delay max_attempts =
            (false, k + 1))) ∧
      ((∀ j, j < max_attempts.toNat → pendingMissing (fetch j) = true) →
        wait_for_command_missing fetch stop wait_delay max_attempts =
          (false, max_attempts.toNat)) ∧
      ((∀ j, j < max_attempts.toNat → pendingUpgrade (fetch j) = true) →
        wait_for_command_upgrade fetch stop wait_delay max_attempts =
          (false, max_attempts.toNat))) := by
  constructor
  · intro h
    constructor <;> simp [wait_for_command_missing, wait_for_command_upgrade, h]
  · intro hwd hma hstop
    have hnot : ¬(wait_delay ≤ 0 ∨ max_attempts ≤ 0) := by omega
    refine ⟨?_, ?_, ?_, ?_⟩
    · intro k hk hp
      have hk2 : k < max_attempts.toNat := by omega
      have := waitGoMissing_terminal fetch stop max_attempts.toNat 0 k hstop hk2
        (fun j hj => by simpa using hp j hj)
      simp only [Nat.zero_add] at this
      exact ⟨fun hc => by
          simp only [wait_for_command_missing, if_neg hnot]; exact this.1 hc,
        fun hc => by
          simp only [wait_for_command_missing, if_neg hnot]; exact this.2 hc⟩
    · intro k hk hp
      have hk2 : k < max_attempts.toNat := by omega
      have := waitGoUpgrade_terminal fetch stop max_attempts.toNat 0 k hstop hk2
        (fun j hj => by simpa using hp j hj)
      simp only [Nat.zero_add] at this
      exact ⟨fun hc => by
          simp only [wait_for_command_upgrade, if_neg hnot]; exact this.1 hc,
        fun hc => by
          simp only [wait_for_command_upgrade, if_neg hnot]; exact this.2.1 hc⟩
    · intro hp
      simp only [wait_for_command_missing, if_neg hnot]
      exact waitGoMissing_timeout fetch stop max_attempts.toNat 0 hstop
        (fun j hj => by simpa using hp j hj)
    · intro hp
      simp only [wait_for_command_upgrade, if_neg hnot]
      exact waitGoUpgrade_timeout fetch stop max_attempts.toNat 0 hstop
        (fun j hj => by simpa using hp j hj)

/-- Witness for C2 at concrete inputs: a pending status at attempt 0
followed by `completed` at attempt 1 returns `(true, 2)` in the
missing-episode poller, and the degenerate configuration returns
`(true, 0)` in both. -/
theorem C2_wait_for_command_terminal_classification_witness :
    wait_for_command_missing
      (fun i => if i = 0 then .record (some "queued")
                else .record (some "completed"))
      (fun _ => false) 1 3 = (true, 2) ∧
    wait_for_command_missing
      (fun i => if i = 0 then .record (some "queued")
                else .record (some "completed"))
      (fun _ => false) 0 3 = (true, 0) := by
  constructor
  · have h := (C2_wait_for_command_terminal_classification
      (fun i => if i = 0 then .record (some "queued")
                else .record (some "completed"))
      (fun _ => false) 1 3).2 (by decide) (by decide) (fun _ => rfl)
    have h2 := (h.1 1 (by decide) (fun j hj => by
      have hj0 : j = 0 := by omega
      subst hj0; decide)).1 (by decide)
    simpa using h2
  · have h := (C2_wait_for_command_terminal_classification
      (fun i => if i = 0 then .record (some "queued")
                else .record (some "completed"))
      (fun _ => false) 0 3).1 (Or.inl (by decide))
    exact h.1

section PollerComparison

variable (fetch : Nat → CmdStatusRes) (stop : Nat → Bool)

theorem waitGo_eq_of_no_failFetch (h : ∀ i, fetch i ≠ .failFetch) (f : Nat) :
    ∀ i, waitGoMissing fetch stop i f = waitGoUpgrade fetch stop i f := by
  induction f with
  | zero => intro i; rfl
  | succ f ih =>
    intro i
    by_cases hs : stop i = true
    · simp [waitGoMissing, waitGoUpgrade, hs]
    · have hs' : stop i = false := by simpa using hs
      cases hf : fetch i with
      | failFetch => exact absurd hf (h i)
      | emptyDict => simp [waitGoMissing, waitGoUpgrade, hs', hf, ih]
      | record st => simp [waitGoMissing, waitGoUpgrade, hs', hf, ih]

theorem waitGoMissing_shift (f : Nat) :
    ∀ i, waitGoMissing fetch stop (i + 1) f =
      waitGoMissing (fun n => fetch (n + 1)) (fun n => stop (n + 1)) i f := by
  induction f with
  | zero => intro i; rfl
  | succ f ih =>
    intro i
    by_cases hs : stop (i + 1) = true
    · simp [waitGoMissing, hs]
    · have hs' : stop (i + 1) = false := by simpa using hs
      cases hf : fetch (i + 1) with
      | failFetch => simp [waitGoMissing, hs', hf, ih]
      | emptyDict => simp [waitGoMissing, hs', hf, ih]
      | record st => simp [waitGoMissing, hs', hf, ih]

end PollerComparison

/-- C3: the two `wait_for_command` implementations agree whenever no
status fetch fails (returns `None`); they differ exactly on a failed
fetch: the upgrade implementation returns `False` at the first failed
fetch (after the attempt that observed it), while the missing-episode
implementation consumes one attempt and continues polling with the
remaining attempts (behaving as the same poll restarted one step
later with one fewer attempt, counting one extra status check). -/
theorem C3_wait_for_command_divergence
    (fetch : Nat → CmdStatusRes) (stop : Nat → Bool)
    (wait_delay max_attempts : Int) :
    ((∀ i, fetch i ≠ .failFetch) →
      wait_for_command_missing fetch stop wait_delay max_attempts =
        wait_for_command_upgrade fetch stop wait_delay max_attempts) ∧
    (0 < wait_delay → 0 < max_attempts → (∀ j, stop j = false) →
      ∀ k : Nat, (k : Int) < max_attempts →
        (∀ j, j < k → pendingUpgrade (fetch j) = true) →
        fetch k = .failFetch →
        wait_for_command_upgrade fetch stop wait_delay max_attempts =
          (false, k + 1)) ∧
    (0 < wait_delay → 1 < max_attempts → stop 0 = false →
      fetch 0 = .failFetch →
      wait_for_command_missing fetch stop wait_delay max_attempts =
        ((wait_for_command_missing (fun n => fetch (n + 1))
            (fun n => stop (n + 1)) wait_delay (max_attempts - 1)).1,
         (wait_for_command_missing (fun n => fetch (n + 1))
            (fun n => stop (n + 1)) wait_delay (max_attempts - 1)).2 + 1)) := by
  refine ⟨?_, ?_, ?_⟩
  · intro h
    unfold wait_for_command_missing wait_for_command_upgrade
    by_cases hd : wait_delay ≤ 0 ∨ max_attempts ≤ 0
    · simp [hd]
    · simp only [hd, if_false]
      exact waitGo_eq_of_no_failFetch fetch stop h max_attempts.toNat 0
  · intro hwd hma hstop k hk hp hf
    have hnot : ¬(wait_delay ≤ 0 ∨ max_attempts ≤ 0) := by omega
    have hk2 : k < max_attempts.toNat := by omega
    have := (waitGoUpgrade_terminal fetch stop max_attempts.toNat 0 k hstop hk2
      (fun j hj => by simpa using hp j hj)).2.2 (by simpa using hf)
    simp only [wait_for_command_upgrade, if_neg hnot]
    exact this
  · intro hwd hma hstop0 hf0
    have hnot : ¬(wait_delay ≤ 0 ∨ max_attempts ≤ 0) := by omega
    have hnot2 : ¬(wait_delay ≤ 0 ∨ max_attempts - 1 ≤ 0) := by omega
    simp only [wait_for_command_missing, if_neg hnot, if_neg hnot2]
    have hto : max_attempts.toNat = (max_attempts - 1).toNat + 1 := by omega
    rw [hto]
    rw [waitGoMissing_pending_step fetch stop 0 (max_attempts - 1).toNat hstop0
      (by simp [pendingMissing, hf0])]
    rw [show (0 + 1) = 1 by rfl,
      show (1 : Nat) = 0 + 1 by rfl,
      waitGoMissing_shift fetch stop (max_attempts - 1).toNat 0]

/-- Witness for C3: a concrete run where the first status fetch fails
and the second reports completed. The upgrade poller returns failure
after one check, the missing-episode poller succeeds after two. -/
theorem C3_wait_for_command_divergence_witness :
    wait_for_command_upgrade
      (fun i => if i = 0 then .failFetch else .record (some "completed"))
      (fun _ => false) 1 3 = (false, 1) ∧
    wait_for_command_missing
      (fun i => if i = 0 then .failFetch else .record (some "completed"))
      (fun _ => false) 1 3 = (true, 2) := by
  constructor
  · exact (C3_wait_for_command_divergence
      (fun i => if i = 0 then .failFetch else .record (some "completed"))
      (fun _ => false) 1 3).2.1 (by decide) (by decide) (fun _ => rfl) 0
      (by decide) (fun j hj => by omega) (by decide)
  · have h := (C3_wait_for_command_divergence
      (fun i => if i = 0 then .failFetch else .record (some "completed"))
      (fun _ => false) 1 3).2.2 (by decide) (by decide) rfl (by decide)
    rw [h]
    decide

/-- Parse outcome of an `airDateUtc` field: the field may be absent (or
empty), present but not matching the fixed format (so that
`time.strptime` raises), or parsed to a Unix timestamp. -/
inductive AirDate where
  | absent
  | unparsable
  | parsed (t : Nat)
deriving DecidableEq, Repr

/-- One episode record as returned by the Sonarr wanted/missing and
wanted/cutoff endpoints. `seriesId` is the raw optional field;
`seriesMonitored` is the value of `ep.get('series', ...).get('monitored',
False)`. -/
structure Episode where
  epId : Nat
  seriesId : Option Nat
  seasonNumber : Option Nat
  airDate : AirDate
  monitored : Bool
  seriesMonitored : Bool
  title : String
  seriesTitle : String
deriving DecidableEq, Repr

/-- Value of the tag-gate expression `int(ep.get("seriesId") or 0)`
applied to an episode (missing.py line 152, upgrade.py line 136). -/
def Episode.gateSeriesId (ep : Episode) : Nat := ep.seriesId.getD 0

/-- Page size used by `get_missing_episodes` and
`get_cutoff_unmet_episodes` (api.py lines 263, 374). -/
def collectorPageSize : Nat := 1000

/-- Retries per page for the paginated collectors (api.py lines 265,
376). -/
def retriesPerPage : Nat := 2

/-- Inner retry loop of the paginated collectors: `fetch p a` is the
outcome of attempt `a` for page `p`, where `none` models any failure
retried by the code (empty response body, JSON decode error, request or
unexpected exception) and `some r` a parsed page with record list `r`.
Attempts run while `retry_count <= retries_per_page`. -/
def tryPageGo (fetch : Nat → Nat → Option (List Episode)) (p : Nat) :
    Nat → Nat → Option (List Episode)
  | _, 0 => none
  | a, fuel + 1 =>
    match fetch p a with
    | some r => some r
    | none => tryPageGo fetch p (a + 1) fuel

/-- Retry wrapper for one page: up to `retries_per_page + 1` attempts,
returning the first parsed record list, or `none` when all attempts
fail. -/
def tryPage (fetch : Nat → Nat → Option (List Episode)) (p : Nat) :
    Option (List Episode) :=
  tryPageGo fetch p 0 (retriesPerPage + 1)

/-- Outer pagination loop shared by `get_missing_episodes` (api.py
lines 268-354) and `get_cutoff_unmet_episodes` (api.py lines 381-488):
starting at page `p`, a page whose retries are exhausted or whose
record list is empty stops pagination; any non-empty page (even one
shorter than the page size) is accumulated and the next page is
requested. `fuel` bounds the number of pages examined (the Python loop
is unbounded; all theorems below assume the stop condition is reached
within `fuel`). -/
def collectGo (fetch : Nat → Nat → Option (List Episode)) :
    Nat → Nat → List Episode
  | 0, _ => []
  | fuel + 1, p =>
    match tryPage fetch p with
    | none => []
    | some [] => []
    | some r => r ++ collectGo fetch fuel (p + 1)

/-- Local monitored-only post-filter applied by the collectors: both
the episode's own `monitored` flag and its parent series' `monitored`
flag must be true (api.py lines 358-365, 492-499). -/
def monitoredFilter (l : List Episode) : List Episode :=
  l.filter (fun ep => ep.seriesMonitored && ep.monitored)

/-- Embedding of `get_missing_episodes` (api.py lines 259-368):
paginated accumulation from page 1 followed by the optional
monitored-only post-filter. -/
def get_missing_episodes (fetch : Nat → Nat → Option (List Episode))
    (fuel : Nat) (monitored_only : Bool) : List Episode :=
  let all := collectGo fetch fuel 1
  if monitored_only then monitoredFilter all else all

/-- Embedding of `get_cutoff_unmet_episodes` (api.py lines 370-502);
identical loop structure to `get_missing_episodes` (the two differ only
in endpoint, query parameters and log text). -/
def get_cutoff_unmet_episodes (fetch : Nat → Nat → Option (List Episode))
    (fuel : Nat) (monitored_only : Bool) : List Episode :=
  let all := collectGo fetch fuel 1
  if monitored_only then monitoredFilter all else all

/-- First page index at which pagination stops (retries exhausted or
empty record list), searching at most `fuel` pages from `p`. -/
def findStop (fetch : Nat → Nat → Option (List Episode)) :
    Nat → Nat → Option Nat
  | 0, _ => none
  | fuel + 1, p =>
    match tryPage fetch p with
    | none => some p
    | some [] => some p
    | some _ => findStop fetch fuel (p + 1)

/-- Collector claimed by the spec sentence under test for C4: like
`collectGo` but additionally stopping right after accumulating a page
whose record count is strictly below the page size. -/
def collectSpecShortStop (fetch : Nat → Nat → Option (List Episode)) :
    Nat → Nat → List Episode
  | 0, _ => []
  | fuel + 1, p =>
    match tryPage fetch p with
    | none => []
    | some [] => []
    | some r =>
      if r.length < collectorPageSize then r
      else r ++ collectSpecShortStop fetch fuel (p + 1)

theorem tryPage_characterization (fetch : Nat → Nat → Option (List Episode))
    (p : Nat) :
    (tryPage fetch p = none ↔
      fetch p 0 = none ∧ fetch p 1 = none ∧ fetch p 2 = none) ∧
    (∀ r, tryPage fetch p = some r ↔
      (fetch p 0 = some r ∨
       (fetch p 0 = none ∧ fetch p 1 = some r) ∨
       (fetch p 0 = none ∧ fetch p 1 = none ∧ fetch p 2 = some r))) := by
  unfold tryPage retriesPerPage
  cases h0 : fetch p 0 <;> cases h1 : fetch p 1 <;> cases h2 : fetch p 2 <;>
    simp [tryPageGo, h0, h1, h2]

theorem collectGo_eq_join (fetch : Nat → Nat → Option (List Episode)) :
    ∀ (fuel p₀ k : Nat), findStop fetch fuel p₀ = some k →
      p₀ ≤ k ∧
      collectGo fetch fuel p₀ =
        ((List.range' p₀ (k - p₀)).map
          (fun p => (tryPage fetch p).getD [])).flatten ∧
      (∀ p, p₀ ≤ p → p < k → ∃ r, tryPage fetch p = some r ∧ r ≠ []) ∧
      (tryPage fetch k = none ∨ tryPage fetch k = some []) := by
  intro fuel
  induction fuel with
  | zero => intro p₀ k h; simp [findStop] at h
  | succ fuel ih =>
    intro p₀ k h
    cases htp : tryPage fetch p₀ with
    | none =>
      have hk : k = p₀ := by
        simp [findStop, htp] at h; omega
      subst hk
      refine ⟨le_refl _, ?_, ?_, Or.inl htp⟩
      · simp [collectGo, htp]
      · intro p hp1 hp2; omega
    | some r =>
      cases r with
      | nil =>
        have hk : k = p₀ := by
          simp [findStop, htp] at h; omega
        subst hk
        refine ⟨le_refl _, ?_, ?_, Or.inr htp⟩
        · simp [collectGo, htp]
        · intro p hp1 hp2; omega
      | cons e r' =>
        have hrec : findStop fetch fuel (p₀ + 1) = some k := by
          simpa [findStop, htp] using h
        obtain ⟨hle, hcoll, hsucc, hstop⟩ := ih (p₀ + 1) k hrec
        refine ⟨by omega, ?_, ?_, hstop⟩
        · have hn : k - p₀ = (k - (p₀ + 1)) + 1 := by omega
          rw [hn, List.range'_succ]
          simp only [List.map_cons, List.flatten_cons]
          rw [htp]
          simp [collectGo, htp, hcoll]
        · intro p hp1 hp2
          rcases Nat.eq_or_lt_of_le hp1 with hp | hp
          · exact ⟨e :: r', hp ▸ htp, by simp⟩
          · exact hsucc p (by omega) hp2

/-- Concrete episode used in counterexamples. -/
def epA : Episode :=
  ⟨1, some 10, some 1, .parsed 100, true, true, "a", "sa"⟩

/-- Second concrete episode used in counterexamples. -/
def epB : Episode :=
  ⟨2, some 11, some 1, .parsed 100, true, true, "b", "sb"⟩

/-- Page oracle for the C4 counterexample: page 1 yields one record
(a short page: 1 < 1000), page 2 yields another record, page 3 is
empty, every attempt succeeds. -/
def c4fetch : Nat → Nat → Option (List Episode) :=
  fun p _ => if p = 1 then some [epA] else if p = 2 then some [epB] else some []

/-- C4 counterexample: the claim asserts that pagination stops at a
page whose record count is strictly below the page size, after
accumulating it. On the oracle `c4fetch`, page 1 is short (1 record
< 1000) and every fetch succeeds, so under the claim the collector
would return exactly the records of page 1; the code keeps paginating
and also accumulates page 2. Hence the claimed stopping condition is
false of the code. -/
theorem C4_counterexample_short_page_does_not_stop :
    tryPage c4fetch 1 = some [epA] ∧
    [epA].length < collectorPageSize ∧
    collectGo c4fetch 5 1 = [epA, epB] ∧
    collectSpecShortStop c4fetch 5 1 = [epA] ∧
    collectGo c4fetch 5 1 ≠ collectSpecShortStop c4fetch 5 1 := by
  refine ⟨by decide, by decide, by decide, by decide, by decide⟩

/-- C4 (amended): for both paginated collectors the pre-filter
accumulation equals the concatenation of the record lists of the
successfully fetched pages, in page order; pagination stops exactly at
the first page that either returns zero records or exhausts all
`retries_per_page + 1` attempts (each page is retried while attempts
fail); a short non-empty page is accumulated but does not stop
pagination; and in the retries-exhausted case the records accumulated
so far are returned as an ordinary list (the same concatenation), not
an error. -/
theorem C4_paginated_collector_amended
    (fetch : Nat → Nat → Option (List Episode)) (fuel k : Nat)
    (hterm : findStop fetch fuel 1 = some k) :
    (get_missing_episodes fetch fuel false =
        ((List.range' 1 (k - 1)).map
          (fun p => (tryPage fetch p).getD [])).flatten ∧
      get_cutoff_unmet_episodes fetch fuel false =
        ((List.range' 1 (k - 1)).map
          (fun p => (tryPage fetch p).getD [])).flatten) ∧
    (∀ p, 1 ≤ p → p < k → ∃ r, tryPage fetch p = some r ∧ r ≠ []) ∧
    (tryPage fetch k = none ∨ tryPage fetch k = some []) ∧
    (∀ p, (tryPage fetch p = none ↔
        fetch p 0 = none ∧ fetch p 1 = none ∧ fetch p 2 = none) ∧
      (∀ r, tryPage fetch p = some r ↔
        (fetch p 0 = some r ∨
         (fetch p 0 = none ∧ fetch p 1 = some r) ∨
         (fetch p 0 = none ∧ fetch p 1 = none ∧ fetch p 2 = some r)))) := by
  obtain ⟨hle, hcoll, hsucc, hstop⟩ := collectGo_eq_join fetch fuel 1 k hterm
  refine ⟨⟨?_, ?_⟩, hsucc, hstop, fun p => tryPage_characterization fetch p⟩
  · simpa [get_missing_episodes] using hcoll
  · simpa [get_cutoff_unmet_episodes] using hcoll

/-- Witness for the amended C4 on the counterexample oracle: pagination
stops at page 3 (the first empty page) and the result is the
concatenation of pages 1 and 2. -/
theorem C4_paginated_collector_amended_witness :
    get_missing_episodes c4fetch 5 false = [epA, epB] ∧
    (tryPage c4fetch 3 = none ∨ tryPage c4fetch 3 = some []) := by
  have h := C4_paginated_collector_amended c4fetch 5 3 (by decide)
  refine ⟨?_, h.2.2.1⟩
  rw [h.1.1]
  decide

/-- Page size fixed at 100 for the random-page selectors (api.py lines
509, 584). -/
def randomPageSize : Nat := 100

/-- Embedding of `get_cutoff_unmet_episodes_random_page` (api.py lines
504-577). `probe` is the outcome of the page-size-1 probe request
(`.error` models any of the caught exceptions, `.ok t` a parsed
response with `totalRecords = t`); `pick n` models
`random.randint(1, n)`; `pageFetch p` the fetch of page `p`; `sample`
models `random.sample`. -/
def get_cutoff_unmet_episodes_random_page (probe : Except Unit Nat)
    (pick : Nat → Nat) (pageFetch : Nat → Except Unit (List Episode))
    (sample : List Episode → Nat → List Episode)
    (monitored_only : Bool) (count : Nat) : List Episode :=
  match probe with
  | .error _ => []
  | .ok total =>
    if total = 0 then []
    else
      let totalPages := (total + randomPageSize - 1) / randomPageSize
      if totalPages = 0 then []
      else
        let rp := pick totalPages
        match pageFetch rp with
        | .error _ => []
        | .ok recs =>
          let flt := if monitored_only then monitoredFilter recs else recs
          if count < flt.length then sample flt count else flt

/-- Outcome of one probe request in `get_missing_episodes_random_page`:
a raised request exception, an empty response body, a JSON decode
failure, or a parsed `totalRecords`. -/
inductive ProbeRes where
  | httpFail
  | emptyBody
  | jsonFail
  | ok (total : Nat)
deriving DecidableEq, Repr

/-- Outcome of the page fetch inside one attempt of
`get_missing_episodes_random_page`. -/
inductive RPageRes where
  | httpFail
  | emptyBody
  | jsonFail
  | ok (recs : List Episode)
deriving DecidableEq, Repr

/-- Attempt loop of `get_missing_episodes_random_page` (api.py lines
579-694): attempt `a` probes for the total count and, on success,
fetches one randomly chosen page. A raised request exception or a JSON
decode failure in either request retries the whole attempt (up to
`retries + 1 = 3` attempts, then returns the empty list); an empty probe
body retries; an empty page body returns the empty list immediately;
`totalRecords = 0` returns the empty list immediately. -/
def missingRandomGo (probeA : Nat → ProbeRes) (pick : Nat → Nat)
    (pageFetchA : Nat → Nat → RPageRes)
    (sample : List Episode → Nat → List Episode)
    (monitored_only : Bool) (count : Nat) : Nat → Nat → List Episode
  | _, 0 => []
  | a, fuel + 1 =>
    let retry := missingRandomGo probeA pick pageFetchA sample
      monitored_only count (a + 1) fuel
    match probeA a with
    | .httpFail => retry
    | .emptyBody => retry
    | .jsonFail => retry
    | .ok total =>
      if total = 0 then []
      else
        let totalPages := (total + randomPageSize - 1) / randomPageSize
        if totalPages = 0 then []
        else
          let rp := pick totalPages
          match pageFetchA a rp with
          | .httpFail => retry
          | .emptyBody => []
          | .jsonFail => retry
          | .ok recs =>
            let flt := if monitored_only then monitoredFilter recs else recs
            if count < flt.length then sample flt count else flt

/-- Embedding of `get_missing_episodes_random_page` (api.py lines
579-694): three attempts starting at attempt 0. -/
def get_missing_episodes_random_page (probeA : Nat → ProbeRes)
    (pick : Nat → Nat) (pageFetchA : Nat → Nat → RPageRes)
    (sample : List Episode → Nat → List Episode)
    (monitored_only : Bool) (count : Nat) : List Episode :=
  missingRandomGo probeA pick pageFetchA sample monitored_only count 0 3

/-- Shared postcondition lemma for the page-sampling step: taking
`random.sample` when the filtered page is larger than the requested
count, or the whole filtered page otherwise. -/
theorem sampleStep_spec (sample : List Episode → Nat → List Episode)
    (hsample : ∀ (l : List Episode) (k : Nat), k ≤ l.length →
      ∃ sub, sub.Sublist l ∧ sub.length = k ∧ (sample l k).Perm sub)
    (flt : List Episode) (count : Nat) :
    ((if count < flt.length then sample flt count else flt).length =
        min count flt.length) ∧
    (∀ ep, ep ∈ (if count < flt.length then sample flt count else flt) →
        ep ∈ flt) ∧
    (flt.Nodup →
      (if count < flt.length then sample flt count else flt).Nodup) := by
  by_cases h : count < flt.length
  · obtain ⟨sub, hsub, hlen, hperm⟩ := hsample flt count (Nat.le_of_lt h)
    simp only [h, if_true]
    refine ⟨?_, ?_, ?_⟩
    · rw [hperm.length_eq, hlen]; omega
    · intro ep hep
      exact hsub.mem (hperm.mem_iff.mp hep)
    · intro hnd
      exact hperm.nodup_iff.mpr (hsub.nodup hnd)
  · simp only [h, if_false]
    refine ⟨by omega, fun ep hep => hep, fun hnd => hnd⟩

/-- C6: random-sample selector postcondition for both selectors,
assuming the probe and page fetches succeed, that `random.randint(1,n)`
yields a value in `[1, n]`, and that `random.sample(l, k)` yields `k`
elements drawn without replacement from `l` (a permutation of a length-
`k` sublist). If the probe reports zero total records the result is
empty; otherwise the chosen page lies in `[1, ceil(totalRecords/100)]`,
the monitored-only post-filter requires both the episode and its parent
series monitored, and the result has exactly
`min count (filtered page length)` elements, all drawn from the fetched
page, with no duplicates when the page has none. -/
theorem C6_random_page_selector_postcondition
    (pick : Nat → Nat) (sample : List Episode → Nat → List Episode)
    (hpick : ∀ n, 1 ≤ n → 1 ≤ pick n ∧ pick n ≤ n)
    (hsample : ∀ (l : List Episode) (k : Nat), k ≤ l.length →
      ∃ sub, sub.Sublist l ∧ sub.length = k ∧ (sample l k).Perm sub)
    (monitored_only : Bool) (count : Nat) :
    (get_cutoff_unmet_episodes_random_page (.ok 0) pick
        (fun _ => .error ()) sample monitored_only count = [] ∧
     ∀ probeA, probeA 0 = .ok 0 →
       ∀ pageFetchA, get_missing_episodes_random_page probeA pick
         pageFetchA sample monitored_only count = []) ∧
    (∀ (total : Nat) (recs : List Episode) (pageFetch : Nat → Except Unit (List Episode)),
      0 < total →
      pageFetch (pick ((total + randomPageSize - 1) / randomPageSize)) = .ok recs →
      (1 ≤ pick ((total + randomPageSize - 1) / randomPageSize) ∧
       pick ((total + randomPageSize - 1) / randomPageSize) ≤
         (total + randomPageSize - 1) / randomPageSize) ∧
      (let flt := if monitored_only then monitoredFilter recs else recs
       let res := get_cutoff_unmet_episodes_random_page (.ok total) pick
         pageFetch sample monitored_only count
       res.length = min count flt.length ∧
       (∀ ep, ep ∈ res → ep ∈ recs) ∧
       (monitored_only = true →
         ∀ ep, ep ∈ res → ep.seriesMonitored = true ∧ ep.monitored = true) ∧
       (flt.Nodup → res.Nodup))) ∧
    (∀ (total : Nat) (recs : List Episode) (probeA : Nat → ProbeRes)
        (pageFetchA : Nat → Nat → RPageRes),
      0 < total →
      probeA 0 = .ok total →
      pageFetchA 0 (pick ((total + randomPageSize - 1) / randomPageSize)) =
        .ok recs →
      (let flt := if monitored_only then monitoredFilter recs else recs
       let res := get_missing_episodes_random_page probeA pick pageFetchA
         sample monitored_only count
       res.length = min count flt.length ∧
       (∀ ep, ep ∈ res → ep ∈ recs) ∧
       (flt.Nodup → res.Nodup))) := by
  have hmemflt : ∀ (mo : Bool) (recs : List Episode) (ep : Episode),
      ep ∈ (if mo then monitoredFilter recs else recs) → ep ∈ recs := by
    intro mo recs ep hep
    by_cases hmo : mo
    · simp only [hmo, if_true, monitoredFilter] at hep
      exact List.mem_of_mem_filter hep
    · simpa [hmo] using hep
  refine ⟨⟨?_, ?_⟩, ?_, ?_⟩
  · rfl
  · intro probeA hprobe pageFetchA
    simp [get_missing_episodes_random_page, missingRandomGo, hprobe]
  · intro total recs pageFetch htot hpage
    have htp : 1 ≤ (total + randomPageSize - 1) / randomPageSize := by
      rw [Nat.one_le_div_iff (by decide : 0 < randomPageSize)]
      simp only [randomPageSize]; omega
    have hpk := hpick _ htp
    refine ⟨hpk, ?_⟩
    have hres : get_cutoff_unmet_episodes_random_page (.ok total) pick
        pageFetch sample monitored_only count =
        (let flt := if monitored_only then monitoredFilter recs else recs
         if count < flt.length then sample flt count else flt) := by
      simp only [get_cutoff_unmet_episodes_random_page]
      rw [if_neg (by omega), if_neg (by omega), hpage]
    obtain ⟨hlen, hmem, hnd⟩ := sampleStep_spec sample hsample
      (if monitored_only then monitoredFilter recs else recs) count
    refine ⟨by rw [hres]; exact hlen, ?_, ?_, by rw [hres]; exact hnd⟩
    · intro ep hep
      rw [hres] at hep
      exact hmemflt monitored_only recs ep (hmem ep hep)
    · intro hmo ep hep
      rw [hres] at hep
      have h2 := hmem ep hep
      simp only [hmo, if_true, monitoredFilter, List.mem_filter] at h2
      have hflags := Bool.and_eq_true_iff.mp h2.2
      exact ⟨hflags.1, hflags.2⟩
  · intro total recs probeA pageFetchA htot hprobe hpage
    have htp : 1 ≤ (total + randomPageSize - 1) / randomPageSize := by
      rw [Nat.one_le_div_iff (by decide : 0 < randomPageSize)]
      simp only [randomPageSize]; omega
    have hres : get_missing_episodes_random_page probeA pick pageFetchA
        sample monitored_only count =
        (let flt := if monitored_only then monitoredFilter recs else recs
         if count < flt.length then sample flt count else flt) := by
      simp only [get_missing_episodes_random_page, missingRandomGo, hprobe]
      rw [if_neg (by omega), if_neg (by omega), hpage]
    obtain ⟨hlen, hmem, hnd⟩ := sampleStep_spec sample hsample
      (if monitored_only then monitoredFilter recs else recs) count
    refine ⟨by rw [hres]; exact hlen, ?_, by rw [hres]; exact hnd⟩
    intro ep hep
    rw [hres] at hep
    exact hmemflt monitored_only recs ep (hmem ep hep)

/-- Witness for C6 with identity-like oracles: a two-record page with
`count = 1` yields exactly one record drawn from the page. -/
theorem C6_random_page_selector_postcondition_witness :
    (get_cutoff_unmet_episodes_random_page (.ok 150) (fun n => n)
        (fun _ => .ok [epA, epB]) (fun l k => l.take k) false 1).length =
      min 1 ([epA, epB].length) ∧
    get_cutoff_unmet_episodes_random_page (.ok 0) (fun n => n)
        (fun _ => .error ()) (fun l k => l.take k) false 1 = [] := by
  have h := C6_random_page_selector_postcondition (fun n => n)
    (fun l k => l.take k)
    (fun n hn => ⟨hn, le_refl n⟩)
    (fun l k hk => ⟨l.take k, List.take_sublist k l,
      by rw [List.length_take]; omega, List.Perm.refl _⟩)
    false 1
  refine ⟨?_, h.1.1⟩
  have h2 := (h.2.1 150 [epA, epB] (fun _ => .ok [epA, epB])
    (by decide) rfl).2
  exact h2.1

/-- Quota-check outcome for the dispatchers: `some b` models
`check_hourly_cap_exceeded` returning `b`, `none` models it raising. -/
abbrev QuotaRes := Option Bool

/-- Embedding of `search_episode` (api.py lines 696-734). Output:
returned command id, whether the command POST was issued, and the
number of `increment_hourly_cap` calls. A raised quota check is logged
and dispatch proceeds; `post` is the POST outcome (`.ok cid` a 2xx
response whose body's optional `id` field is `cid`). -/
def search_episode (quota : QuotaRes) (post : Except Unit (Option Nat))
    (episode_ids : List Nat) : Option Nat × Bool × Nat :=
  if episode_ids = [] then (none, false, 0)
  else
    match quota with
    | some true => (none, false, 0)
    | _ =>
      match post with
      | .error _ => (none, true, 0)
      | .ok cid => (cid, true, 1)

/-- Embedding of `search_season` (api.py lines 820-855); identical
quota gating without the empty-id-list guard. -/
def search_season (quota : QuotaRes) (post : Except Unit (Option Nat)) :
    Option Nat × Bool × Nat :=
  match quota with
  | some true => (none, false, 0)
  | _ =>
    match post with
    | .error _ => (none, true, 0)
    | .ok cid => (cid, true, 1)

/-- C7: quota-gate asymmetry. If the quota collaborator reports the cap
exceeded, both dispatchers return `None` without issuing the POST and
without incrementing; if the quota check raises, dispatch proceeds
exactly as if the quota were not exceeded; and after a successful POST
the quota collaborator is incremented exactly once. -/
theorem C7_quota_gate_asymmetry (quota : QuotaRes)
    (post : Except Unit (Option Nat)) (episode_ids : List Nat) :
    (quota = some true →
      search_episode quota post episode_ids = (none, false, 0) ∧
      search_season quota post = (none, false, 0)) ∧
    (search_episode none post episode_ids =
        search_episode (some false) post episode_ids ∧
      search_season none post = search_season (some false) post) ∧
    (∀ cid, post = .ok cid → quota ≠ some true → episode_ids ≠ [] →
      search_episode quota post episode_ids = (cid, true, 1) ∧
      search_season quota post = (cid, true, 1)) := by
  refine ⟨?_, ?_, ?_⟩
  · intro hq
    subst hq
    constructor
    · by_cases h : episode_ids = [] <;> simp [search_episode, h]
    · rfl
  · constructor
    · by_cases h : episode_ids = [] <;> simp [search_episode, h]
    · rfl
  · intro cid hp hq hids
    subst hp
    constructor
    · cases quota with
      | none => simp [search_episode, hids]
      | some b => cases b with
        | false => simp [search_episode, hids]
        | true => exact absurd rfl hq
    · cases quota with
      | none => rfl
      | some b => cases b with
        | false => rfl
        | true => exact absurd rfl hq

/-- Witness for C7 at concrete inputs. -/
theorem C7_quota_gate_asymmetry_witness :
    search_episode (some true) (.ok (some 7)) [1, 2] = (none, false, 0) ∧
    search_season none (.ok (some 7)) = (some 7, true, 1) := by
  refine ⟨(C7_quota_gate_asymmetry (some true) (.ok (some 7)) [1, 2]).1 rfl |>.1, ?_⟩
  exact ((C7_quota_gate_asymmetry none (.ok (some 7)) [1, 2]).2.2 (some 7) rfl
    (by simp) (by simp)).2

/-- Parsed-JSON outcome returned by `arr_request` on success: the empty
body is turned into an empty dict, otherwise the parsed value. -/
inductive JsonOut (α : Type) where
  | emptyDict
  | val (a : α)
deriving DecidableEq, Repr

/-- HTTP outcome observed by `arr_request` once a request is issued:
a raised request exception (any non-2xx or transport error), a 2xx
response with empty body, a 2xx response with undecodable body, or a
2xx response with parsed JSON `a`. -/
inductive HttpOutcome (α : Type) where
  | raise
  | okEmpty
  | okBadJson
  | okJson (a : α)
deriving DecidableEq, Repr

/-- Embedding of `arr_request` (api.py lines 24-120): configuration
validation (missing URL or key, URL scheme, unsupported method)
returns `None` before any request; afterwards the HTTP outcome is
classified, with the hourly counter incremented once on any 2xx
response when `count_api` is set. Output: parsed result (the failure
sentinel is `none`) and number of `increment_hourly_cap` calls. -/
def arr_request {α : Type} (api_url api_key method : String)
    (resp : HttpOutcome α) (count_api : Bool) : Option (JsonOut α) × Nat :=
  if api_url = "" ∨ api_key = "" then (none, 0)
  else if ¬(api_url.startsWith "http://" ∨ api_url.startsWith "https://") then
    (none, 0)
  else if ¬(method.toUpper = "GET" ∨ method.toUpper = "POST" ∨
      method.toUpper = "PUT" ∨ method.toUpper = "DELETE") then (none, 0)
  else
    match resp with
    | .raise => (none, 0)
    | .okEmpty => (some .emptyDict, if count_api then 1 else 0)
    | .okBadJson => (none, if count_api then 1 else 0)
    | .okJson a => (some (.val a), if count_api then 1 else 0)

/-- C8: configuration errors never escape as exceptions. In the
embedding every operation is a total function into its sentinel-bearing
result type; `arr_request` maps a missing/empty URL or API key, or a
URL without an http/https scheme, to the `None` sentinel with no
request issued; and `get_missing_episodes`, whose direct requests all
raise on a malformed URL (caught and retried as request errors),
returns the empty-list sentinel when every page attempt fails. -/
theorem C8_configuration_errors_return_sentinels {α : Type}
    (api_url api_key method : String) (resp : HttpOutcome α)
    (count_api : Bool) (fetch : Nat → Nat → Option (List Episode))
    (fuel : Nat) (monitored_only : Bool) :
    ((api_url = "" ∨ api_key = "") →
      arr_request api_url api_key method resp count_api = (none, 0)) ∧
    (¬(api_url.startsWith "http://" ∨ api_url.startsWith "https://") →
      arr_request api_url api_key method resp count_api = (none, 0)) ∧
    ((∀ p a, fetch p a = none) →
      get_missing_episodes fetch fuel monitored_only = []) := by
  refine ⟨?_, ?_, ?_⟩
  · intro h
    simp [arr_request, h]
  · intro h
    by_cases h0 : api_url = "" ∨ api_key = ""
    · simp [arr_request, h0]
    · simp [arr_request, h0, h]
  · intro h
    have hcoll : ∀ fl, collectGo fetch fl 1 = [] := by
      intro fl
      cases fl with
      | zero => rfl
      | succ fl =>
        have htp : tryPage fetch 1 = none :=
          (tryPage_characterization fetch 1).1.mpr ⟨h 1 0, h 1 1, h 1 2⟩
        simp [collectGo, htp]
    by_cases hmo : monitored_only <;>
      simp [get_missing_episodes, hcoll, hmo, monitoredFilter]

/-- Witness for C8 at concrete inputs: an empty URL and an all-failing
page oracle. -/
theorem C8_configuration_errors_return_sentinels_witness :
    arr_request "" "key" "GET" (HttpOutcome.okJson 0) true = (none, 0) ∧
    get_missing_episodes (fun _ _ => none) 4 true = [] := by
  have h := C8_configuration_errors_return_sentinels "" "key"
    "GET" (HttpOutcome.okJson 0) true (fun _ _ => none) 4 true
  exact ⟨h.1 (Or.inl rfl), h.2.2 (fun _ _ => rfl)⟩

/-- Embedding of `refresh_series` (api.py lines 799-802) in the same
effect-reporting shape as the dispatchers: returned command id, whether
any HTTP request was issued, number of `increment_hourly_cap` calls.
The body only logs and returns the constant `123`. -/
def refresh_series (api_url api_key : String) (api_timeout : Int)
    (series_id : Nat) : Option Nat × Bool × Nat :=
  (some 123, false, 0)

/-- C10: `refresh_series` ignores all its arguments, issues no HTTP
request, performs no quota accounting, and always returns the constant
command id `123` — indistinguishable in type and shape from a real
dispatched-command identifier as returned by `search_season`. -/
theorem C10_refresh_series_stub (api_url api_key : String)
    (api_timeout : Int) (series_id : Nat)
    (u2 k2 : String) (t2 : Int) (s2 : Nat) :
    refresh_series api_url api_key api_timeout series_id =
      (some 123, false, 0) ∧
    refresh_series api_url api_key api_timeout series_id =
      refresh_series u2 k2 t2 s2 ∧
    (refresh_series api_url api_key api_timeout series_id).1 =
      (search_season (some false) (.ok (some 123))).1 := by
  exact ⟨rfl, rfl, rfl⟩

/-- Tag record from the tag endpoint: `label` is
`t.get("label") or ""`, `tagId` is `int(t.get("id"))` with `none`
modelling the conversion raising (absent or non-numeric id). -/
structure TagRec where
  label : String
  tagId : Option Nat
deriving DecidableEq, Repr

/-- Series record from the series endpoint: `sid` is `int(s.get("id"))`
with `none` modelling the conversion raising; `tags` is
`s.get("tags") or []`. -/
structure SeriesRec where
  sid : Option Nat
  tags : List Nat
deriving DecidableEq, Repr

/-- Scan of `get_tag_id_by_label`'s loop over the tag list: first tag
whose stripped, lowered label equals `want` yields its id (`None` when
the id conversion raises, returned directly from inside the loop). -/
def findTag (want : String) : List TagRec → Option Nat
  | [] => none
  | t :: rest =>
    if t.label.trim.toLower = want then t.tagId else findTag want rest

/-- Embedding of `get_tag_id_by_label` (api.py lines 173-195): never
creates tags; empty label, failed or empty tag fetch, or no
case-insensitive whitespace-insensitive match yield `none`. -/
def get_tag_id_by_label (tag_label : String)
    (tags : Option (List TagRec)) : Option Nat :=
  if tag_label = "" then none
  else
    match tags with
    | none => none
    | some [] => none
    | some l => findTag (tag_label.trim.toLower) l

/-- Embedding of `get_series_ids_with_tag` (api.py lines 197-219):
series whose id conversion raises are skipped; a series is kept when
`tag_id` is among its tags. (The Python set is modelled as the list of
kept ids; only membership and emptiness are consumed.) -/
def get_series_ids_with_tag (seriesList : Option (List SeriesRec))
    (tag_id : Nat) : List Nat :=
  match seriesList with
  | none => []
  | some l =>
    l.filterMap (fun s =>
      match s.sid with
      | none => none
      | some sid => if tag_id ∈ s.tags then some sid else none)

/-- Inputs of the tag gate: the configured tag label and the outcomes
of the tag-list and series-list fetches (`none` = fetch failed). -/
structure GateEnv where
  label : String
  tags : Option (List TagRec)
  seriesList : Option (List SeriesRec)

/-- Allow-set computation shared by
`_get_allowed_series_ids_for_missing` (missing.py lines 37-55) and
`_get_allowed_series_ids_for_upgrades` (upgrade.py lines 21-39): tag
resolution failure yields the empty allow-set (fail closed). -/
def allowedSeriesIds (g : GateEnv) : List Nat :=
  match get_tag_id_by_label g.label g.tags with
  | none => []
  | some tid => get_series_ids_with_tag g.seriesList tid

/-- Observable operations performed by the orchestrators on their
collaborators, in program order. `searchSeason`/`searchEpisodes`
record a call of the corresponding dispatcher together with the gated
parent-series id; `addProcessed` an `add_processed_id` call;
`logHistory` a `log_processed_media` call; `statIncrement` one
statistics-increment call; `poll` an actual poll (a `wait_for_command`
call that performs status checks, i.e. with positive delay and
attempts). -/
inductive Event where
  | searchSeason (seriesId : Nat) (season : Option Nat)
  | searchEpisodes (seriesId : Nat) (episodeIds : List Nat)
  | tagSeries (seriesId : Nat)
  | logHistory (itemId : String)
  | statIncrement
  | addProcessed (itemId : String)
  | poll (commandId : Nat)
deriving DecidableEq, Repr

/-- Parent-series id targeted by a dispatch event. -/
def eventSeriesTarget : Event → Option Nat
  | .searchSeason sid _ => some sid
  | .searchEpisodes sid _ => some sid
  | _ => none

/-- Series ids targeted by the dispatches of a trace. -/
def eventTargets (tr : List Event) : List Nat :=
  tr.filterMap eventSeriesTarget

/-- One season entry of a show returned by
`get_series_with_missing_episodes`. -/
structure ShowSeason where
  seasonNumber : Option Nat
  episodes : List Episode
deriving DecidableEq, Repr

/-- One show returned by `get_series_with_missing_episodes` (api.py
lines 961-1044): `series_id`, title, and missing episodes grouped by
season. -/
structure ShowRec where
  seriesId : Nat
  title : String
  seasons : List ShowSeason
deriving DecidableEq, Repr

/-- External collaborators consumed during one orchestrator
invocation. `fetched` is the episode list returned by the random-page
fetch; `showsPool` the result of `get_series_with_missing_episodes`;
`stop`, `quota`, `searchSeasonRes`, `searchEpRes` and `waitRes` are
indexed by candidate-loop iteration (`quota` is `none` when the check
raises; `waitRes` the boolean result of `wait_for_command`). -/
structure RunEnv where
  fetched : List Episode
  showsPool : List ShowRec
  nowUnix : Nat
  isProcessed : String → Bool
  stop : Nat → Bool
  quota : Nat → Option Bool
  searchSeasonRes : Nat → Option Nat
  searchEpRes : Nat → Option Nat
  waitRes : Nat → Bool

/-- Keep-predicate of the future-episode filter in the missing modes
(missing.py lines 162-187, 519-540): parsed past air dates are kept,
future ones dropped, unparsable ones kept with a warning, absent ones
kept. -/
def keepPastLenient (now : Nat) (ep : Episode) : Bool :=
  match ep.airDate with
  | .absent => true
  | .unparsable => true
  | .parsed t => t < now

/-- Embedding of `should_delay_episode_search` (missing.py lines
23-35): false when the delay is non-positive or the air date is absent
or unparsable, otherwise true while now precedes air date plus delay
days. -/
def should_delay_episode_search (now : Nat) (airDate : AirDate)
    (delay_days : Int) : Bool :=
  if delay_days ≤ 0 then false
  else
    match airDate with
    | .absent => false
    | .unparsable => false
    | .parsed t => (now : Int) < (t : Int) + delay_days * 86400

/-- One grouped season of `process_missing_seasons_packs_mode`:
series id, season number (possibly absent), the first-seen series
title and the number of grouped episodes. -/
structure SeasonInfo where
  seriesId : Nat
  seasonNumber : Option Nat
  title : String
  count : Nat
deriving DecidableEq, Repr

/-- Processed-ID key string for a season:
`f"{series_id}_{season_number}"` (a Python `None` season renders as
the string None). -/
def seasonKeyStr (sid : Nat) (sn : Option Nat) : String :=
  toString sid ++ "_" ++ (match sn with | some n => toString n | none => "None")

/-- Dict-update step of the season grouping: bump the count of an
existing `(series, season)` key in place, or append a new entry. -/
def bumpSeason (sid : Nat) (sn : Option Nat) (title : String) :
    List SeasonInfo → List SeasonInfo
  | [] => [⟨sid, sn, title, 1⟩]
  | s :: rest =>
    if s.seriesId = sid ∧ s.seasonNumber = sn then
      ⟨s.seriesId, s.seasonNumber, s.title, s.count + 1⟩ :: rest
    else s :: bumpSeason sid sn title rest

/-- Season grouping of `process_missing_seasons_packs_mode`
(missing.py lines 195-218): episodes failing the monitored re-check or
with a falsy series id are skipped; Python dict insertion order is
preserved. -/
def groupSeasons (monitored_only : Bool) (l : List Episode) :
    List SeasonInfo :=
  l.foldl (fun acc ep =>
    if monitored_only ∧ ep.monitored = false then acc
    else
      match ep.seriesId with
      | none => acc
      | some 0 => acc
      | some sid => bumpSeason sid ep.seasonNumber ep.seriesTitle acc) []

/-- Candidate loop of `process_missing_seasons_packs_mode`
(missing.py lines 249-304). Per iteration: break once `hunt` seasons
were processed, on a stop request, or on an exceeded quota (a raised
quota check continues); dispatch `search_season`; on a returned
command id record the processed season id, optionally tag the series,
log to history, bump the hunted statistic once per grouped episode and
poll when the wait configuration is positive. -/
def missingSeasonsLoop (env : RunEnv) (tagEnabled : Bool)
    (cwDelay cwAttempts hunt : Int) :
    List SeasonInfo → Nat → Nat → Bool → Bool × List Event
  | [], _, _, pa => (pa, [])
  | s :: rest, i, pc, pa =>
    if hunt ≤ (pc : Int) then (pa, [])
    else if env.stop i then (pa, [])
    else if env.quota i = some true then (pa, [])
    else
      match env.searchSeasonRes i with
      | some cid =>
        let seg := Event.searchSeason s.seriesId s.seasonNumber ::
          Event.addProcessed (seasonKeyStr s.seriesId s.seasonNumber) ::
          ((if tagEnabled then [Event.tagSeries s.seriesId] else []) ++
            Event.logHistory (seasonKeyStr s.seriesId s.seasonNumber) ::
            (List.replicate s.count Event.statIncrement ++
              (if 0 < cwDelay ∧ 0 < cwAttempts then [Event.poll cid] else [])))
        let r := missingSeasonsLoop env tagEnabled cwDelay cwAttempts hunt
          rest (i + 1) (pc + 1) true
        (r.1, seg ++ r.2)
      | none =>
        let r := missingSeasonsLoop env tagEnabled cwDelay cwAttempts hunt
          rest (i + 1) pc pa
        (r.1, Event.searchSeason s.seriesId s.seasonNumber :: r.2)

/-- Embedding of `process_missing_seasons_packs_mode` (missing.py
lines 119-306). `sortf` models the stable sort by descending episode
count, `shuffle` models `random.shuffle`; theorems assume only that
both permute their input. -/
def process_missing_seasons_packs_mode (env : RunEnv)
    (monitored_only skip_future tagEnabled : Bool)
    (hunt cwDelay cwAttempts : Int)
    (sortf shuffle : List SeasonInfo → List SeasonInfo)
    (allowed : List Nat) : Bool × List Event :=
  if env.fetched = [] then (false, [])
  else
    let eps1 := env.fetched.filter (fun ep => decide (ep.gateSeriesId ∈ allowed))
    if eps1 = [] then (false, [])
    else
      let eps2 := if skip_future then eps1.filter (keepPastLenient env.nowUnix)
        else eps1
      if eps2 = [] then (false, [])
      else
        let seasonsList := sortf (groupSeasons monitored_only eps2)
        let unproc := seasonsList.filter (fun s =>
          !(env.isProcessed (seasonKeyStr s.seriesId s.seasonNumber)))
        if unproc = [] then (false, [])
        else
          missingSeasonsLoop env tagEnabled cwDelay cwAttempts hunt
            (shuffle unproc) 0 0 false

/-- Per-show eligible-episode computation of
`process_missing_shows_mode` (missing.py lines 386-421): the show's
episodes across all seasons, through the future filter and the
air-date-delay filter. -/
def showEligibleEpisodes (env : RunEnv) (skip_future : Bool)
    (delayDays : Int) (sh : ShowRec) : List Episode :=
  let eps0 := sh.seasons.flatMap (fun se => se.episodes)
  let eps1 := if skip_future then eps0.filter (keepPastLenient env.nowUnix)
    else eps0
  if 0 < delayDays then
    eps1.filter (fun ep =>
      !(should_delay_episode_search env.nowUnix ep.airDate delayDays))
  else eps1

/-- Truthy episode ids of the eligible episodes (missing.py line 427). -/
def showEligibleIds (env : RunEnv) (skip_future : Bool) (delayDays : Int)
    (sh : ShowRec) : List Nat :=
  (showEligibleEpisodes env skip_future delayDays sh).filterMap (fun ep =>
    if ep.epId = 0 then none else some ep.epId)

/-- Candidate loop of `process_missing_shows_mode` (missing.py lines
371-477). Per iteration: stop and quota checks, per-show future and
air-date-delay filters, dispatch of all remaining episode ids of the
show, then on success optional tagging, per-episode processed-ID and
history records, the show-level records, one statistics call and an
optional poll. -/
def missingShowsLoop (env : RunEnv) (skip_future tagEnabled : Bool)
    (delayDays cwDelay cwAttempts : Int) :
    List ShowRec → Nat → Bool → Bool × List Event
  | [], _, pa => (pa, [])
  | sh :: rest, i, pa =>
    if env.stop i then (pa, [])
    else if env.quota i = some true then (pa, [])
    else
      if showEligibleEpisodes env skip_future delayDays sh = [] then
        missingShowsLoop env skip_future tagEnabled delayDays cwDelay
          cwAttempts rest (i + 1) pa
      else
        let epIds := showEligibleIds env skip_future delayDays sh
        if epIds = [] then
          missingShowsLoop env skip_future tagEnabled delayDays cwDelay
            cwAttempts rest (i + 1) pa
        else
          match env.searchEpRes i with
          | some cid =>
            let seg := Event.searchEpisodes sh.seriesId epIds ::
              ((if tagEnabled then [Event.tagSeries sh.seriesId] else []) ++
                epIds.flatMap (fun eid =>
                  [Event.addProcessed (toString eid),
                   Event.logHistory (toString eid)]) ++
                [Event.addProcessed (toString sh.seriesId),
                 Event.logHistory (toString sh.seriesId),
                 Event.statIncrement] ++
                (if 0 < cwDelay ∧ 0 < cwAttempts then [Event.poll cid] else []))
            let r := missingShowsLoop env skip_future tagEnabled delayDays
              cwDelay cwAttempts rest (i + 1) true
            (r.1, seg ++ r.2)
          | none =>
            let r := missingShowsLoop env skip_future tagEnabled delayDays
              cwDelay cwAttempts rest (i + 1) pa
            (r.1, Event.searchEpisodes sh.seriesId epIds :: r.2)

/-- Embedding of `process_missing_shows_mode` (missing.py lines
308-478). `sample` models `random.sample`. -/
def process_missing_shows_mode (env : RunEnv)
    (skip_future tagEnabled : Bool)
    (hunt delayDays cwDelay cwAttempts : Int)
    (sample : List ShowRec → Nat → List ShowRec)
    (allowed : List Nat) : Bool × List Event :=
  if env.showsPool = [] then (false, [])
  else
    let pool1 := env.showsPool.filter (fun sh => decide (sh.seriesId ∈ allowed))
    if pool1 = [] then (false, [])
    else
      let unproc := pool1.filter (fun sh =>
        !(env.isProcessed (toString sh.seriesId)))
      if unproc = [] then (false, [])
      else
        missingShowsLoop env skip_future tagEnabled delayDays cwDelay
          cwAttempts (sample unproc (min unproc.length hunt.toNat)) 0 false

/-- Candidate loop of `process_missing_episodes_mode` (missing.py
lines 567-613): per episode, stop and quota checks, a single-episode
dispatch, and on success the processed-ID record, history log, one
statistics call and an optional poll. -/
def missingEpisodesLoop (env : RunEnv) (cwDelay cwAttempts : Int) :
    List Episode → Nat → Bool → Bool × List Event
  | [], _, pa => (pa, [])
  | ep :: rest, i, pa =>
    if env.stop i then (pa, [])
    else if env.quota i = some true then (pa, [])
    else
      match env.searchEpRes i with
      | some cid =>
        let seg := Event.searchEpisodes ep.gateSeriesId [ep.epId] ::
          Event.addProcessed (toString ep.epId) ::
          Event.logHistory (toString ep.epId) ::
          Event.statIncrement ::
          (if 0 < cwDelay ∧ 0 < cwAttempts then [Event.poll cid] else [])
        let r := missingEpisodesLoop env cwDelay cwAttempts rest (i + 1) true
        (r.1, seg ++ r.2)
      | none =>
        let r := missingEpisodesLoop env cwDelay cwAttempts rest (i + 1) pa
        (r.1, Event.searchEpisodes ep.gateSeriesId [ep.epId] :: r.2)

/-- Embedding of `process_missing_episodes_mode` (missing.py lines
480-616). `shuffleEps` models `random.shuffle`. -/
def process_missing_episodes_mode (env : RunEnv) (skip_future : Bool)
    (hunt delayDays cwDelay cwAttempts : Int)
    (shuffleEps : List Episode → List Episode)
    (allowed : List Nat) : Bool × List Event :=
  if env.fetched = [] then (false, [])
  else
    let eps1 := env.fetched.filter (fun ep => decide (ep.gateSeriesId ∈ allowed))
    if eps1 = [] then (false, [])
    else
      let eps2 := if skip_future then eps1.filter (keepPastLenient env.nowUnix)
        else eps1
      let eps3 := if 0 < delayDays then
          eps2.filter (fun ep =>
            !(should_delay_episode_search env.nowUnix ep.airDate delayDays))
        else eps2
      if eps3 = [] then (false, [])
      else
        let unproc := eps3.filter (fun ep =>
          !(env.isProcessed (toString ep.epId)))
        if unproc = [] then (false, [])
        else
          missingEpisodesLoop env cwDelay cwAttempts
            ((shuffleEps unproc).take hunt.toNat) 0 false

/-- Embedding of `process_missing_episodes` (missing.py lines 57-117):
non-positive `hunt_missing_items` and an empty allow-set fail closed;
otherwise the configured mode runs; an invalid mode returns `False`. -/
def process_missing_episodes (g : GateEnv) (env : RunEnv)
    (monitored_only skip_future tagEnabled : Bool)
    (hunt delayDays cwDelay cwAttempts : Int) (mode : String)
    (sortf shuffleSeasons : List SeasonInfo → List SeasonInfo)
    (sampleShows : List ShowRec → Nat → List ShowRec)
    (shuffleEps : List Episode → List Episode) : Bool × List Event :=
  if hunt ≤ 0 then (false, [])
  else
    let allowed := allowedSeriesIds g
    if allowed = [] then (false, [])
    else if mode = "seasons_packs" then
      process_missing_seasons_packs_mode env monitored_only skip_future
        tagEnabled hunt cwDelay cwAttempts sortf shuffleSeasons allowed
    else if mode = "shows" then
      process_missing_shows_mode env skip_future tagEnabled hunt delayDays
        cwDelay cwAttempts sampleShows allowed
    else if mode = "episodes" then
      process_missing_episodes_mode env skip_future hunt delayDays cwDelay
        cwAttempts shuffleEps allowed
    else (false, [])

/-- Inner-dict update of the upgrade season grouping. -/
def bumpInner (sn : Nat) (ep : Episode) :
    List (Nat × List Episode) → List (Nat × List Episode)
  | [] => [(sn, [ep])]
  | (n, eps) :: rest =>
    if n = sn then (n, eps ++ [ep]) :: rest
    else (n, eps) :: bumpInner sn ep rest

/-- Outer-dict update of the upgrade season grouping. -/
def bumpOuter (sid sn : Nat) (ep : Episode) :
    List (Nat × List (Nat × List Episode)) →
      List (Nat × List (Nat × List Episode))
  | [] => [(sid, [(sn, [ep])])]
  | (s, inner) :: rest =>
    if s = sid then (s, bumpInner sn ep inner) :: rest
    else (s, inner) :: bumpOuter sid sn ep rest

/-- Nested grouping of `process_upgrade_seasons_mode` (upgrade.py lines
159-165): episodes with a `None` series id or season number are
skipped (a literal zero id is kept); nested dict insertion order is
preserved. -/
def groupUpgradeSeasons (l : List Episode) :
    List (Nat × List (Nat × List Episode)) :=
  l.foldl (fun acc ep =>
    match ep.seriesId, ep.seasonNumber with
    | some sid, some sn => bumpOuter sid sn ep acc
    | _, _ => acc) []

/-- One candidate of the upgrade season loop: series id, season
number and the grouped episodes. -/
structure AvailSeason where
  seriesId : Nat
  seasonNumber : Nat
  eps : List Episode
deriving DecidableEq, Repr

/-- Flattening of the nested grouping into `available_seasons`
(upgrade.py lines 167-171). -/
def availSeasons (g : List (Nat × List (Nat × List Episode))) :
    List AvailSeason :=
  g.flatMap (fun p => p.2.map (fun q => ⟨p.1, q.1, q.2⟩))

/-- Candidate loop of `process_upgrade_seasons_mode` (upgrade.py lines
198-263). Per iteration: stop and quota checks, dispatch; on a
returned command id the poll runs first (no poll interaction when the
wait configuration is non-positive, in which case `wait_for_command`
returns success immediately); only a successful wait is followed by
tagging, the history log, the processed-ID records and the
per-episode statistics calls. -/
def upgradeSeasonsLoop (env : RunEnv) (tagEnabled : Bool)
    (cwDelay cwAttempts : Int) :
    List AvailSeason → Nat → Bool → Bool × List Event
  | [], _, pa => (pa, [])
  | s :: rest, i, pa =>
    if env.stop i then (pa, [])
    else if env.quota i = some true then (pa, [])
    else
      match env.searchSeasonRes i with
      | some cid =>
        let pollEv := if 0 < cwDelay ∧ 0 < cwAttempts then [Event.poll cid]
          else []
        let ok := if 0 < cwDelay ∧ 0 < cwAttempts then env.waitRes i else true
        if ok then
          let seg := Event.searchSeason s.seriesId (some s.seasonNumber) ::
            (pollEv ++
              (if tagEnabled then [Event.tagSeries s.seriesId] else []) ++
              [Event.logHistory (seasonKeyStr s.seriesId (some s.seasonNumber)),
               Event.addProcessed (seasonKeyStr s.seriesId (some s.seasonNumber))] ++
              s.eps.flatMap (fun ep =>
                [Event.addProcessed (toString ep.epId), Event.statIncrement]))
          let r := upgradeSeasonsLoop env tagEnabled cwDelay cwAttempts rest
            (i + 1) true
          (r.1, seg ++ r.2)
        else
          let r := upgradeSeasonsLoop env tagEnabled cwDelay cwAttempts rest
            (i + 1) pa
          (r.1, (Event.searchSeason s.seriesId (some s.seasonNumber) ::
            pollEv) ++ r.2)
      | none =>
        let r := upgradeSeasonsLoop env tagEnabled cwDelay cwAttempts rest
          (i + 1) pa
        (r.1, Event.searchSeason s.seriesId (some s.seasonNumber) :: r.2)

/-- Embedding of `process_upgrade_seasons_mode` (upgrade.py lines
104-266). The future filter (lines 147-150) parses air dates without a
try block inside a comprehension, so an unparsable present air date in
the gated list raises out of the function (`.error ()`); otherwise
only parsed past air dates survive. The loop consumes stop index 0
before the loop and indices from 1 inside it. -/
def process_upgrade_seasons_mode (env : RunEnv) (tagEnabled : Bool)
    (hunt cwDelay cwAttempts : Int)
    (shuffleAvail : List AvailSeason → List AvailSeason)
    (allowed : List Nat) : Except Unit Bool × List Event :=
  if env.fetched = [] then (.ok false, [])
  else
    let eps1 := env.fetched.filter (fun ep => decide (ep.gateSeriesId ∈ allowed))
    if eps1 = [] then (.ok false, [])
    else if eps1.any (fun ep => ep.airDate = .unparsable) then (.error (), [])
    else
      let eps2 := eps1.filter (fun ep =>
        match ep.airDate with | .parsed t => t < env.nowUnix | _ => false)
      if env.stop 0 then (.ok false, [])
      else
        let avail := availSeasons (groupUpgradeSeasons eps2)
        if avail = [] then (.ok false, [])
        else
          let unproc := avail.filter (fun s =>
            !(env.isProcessed (seasonKeyStr s.seriesId (some s.seasonNumber))))
          if unproc = [] then (.ok false, [])
          else
            let r := upgradeSeasonsLoop env tagEnabled cwDelay cwAttempts
              ((shuffleAvail unproc).take hunt.toNat) 1 false
            (.ok r.1, r.2)

/-- Candidate loop of `process_upgrade_episodes_mode` (upgrade.py
lines 331-378): per episode, stop and quota checks, a single-episode
dispatch, the poll (when configured) before the processed-ID record,
history log and statistics call; a failed wait skips those records. -/
def upgradeEpisodesLoop (env : RunEnv) (cwDelay cwAttempts : Int) :
    List Episode → Nat → Bool → Bool × List Event
  | [], _, pa => (pa, [])
  | ep :: rest, i, pa =>
    if env.stop i then (pa, [])
    else if env.quota i = some true then (pa, [])
    else
      match env.searchEpRes i with
      | some cid =>
        let pollEv := if 0 < cwDelay ∧ 0 < cwAttempts then [Event.poll cid]
          else []
        let ok := if 0 < cwDelay ∧ 0 < cwAttempts then env.waitRes i else true
        if ok then
          let seg := Event.searchEpisodes ep.gateSeriesId [ep.epId] ::
            (pollEv ++
              [Event.addProcessed (toString ep.epId),
               Event.logHistory (toString ep.epId),
               Event.statIncrement])
          let r := upgradeEpisodesLoop env cwDelay cwAttempts rest (i + 1) true
          (r.1, seg ++ r.2)
        else
          let r := upgradeEpisodesLoop env cwDelay cwAttempts rest (i + 1) pa
          (r.1, (Event.searchEpisodes ep.gateSeriesId [ep.epId] :: pollEv) ++ r.2)
      | none =>
        let r := upgradeEpisodesLoop env cwDelay cwAttempts rest (i + 1) pa
        (r.1, Event.searchEpisodes ep.gateSeriesId [ep.epId] :: r.2)

/-- Embedding of `process_upgrade_episodes_mode` (upgrade.py lines
268-382); the same raising future filter as the season mode. -/
def process_upgrade_episodes_mode (env : RunEnv)
    (hunt cwDelay cwAttempts : Int)
    (shuffleEps : List Episode → List Episode)
    (allowed : List Nat) : Except Unit Bool × List Event :=
  if env.fetched = [] then (.ok false, [])
  else
    let eps1 := env.fetched.filter (fun ep => decide (ep.gateSeriesId ∈ allowed))
    if eps1 = [] then (.ok false, [])
    else if eps1.any (fun ep => ep.airDate = .unparsable) then (.error (), [])
    else
      let eps2 := eps1.filter (fun ep =>
        match ep.airDate with | .parsed t => t < env.nowUnix | _ => false)
      if env.stop 0 then (.ok false, [])
      else
        let unproc := eps2.filter (fun ep =>
          !(env.isProcessed (toString ep.epId)))
        if unproc = [] then (.ok false, [])
        else
          let r := upgradeEpisodesLoop env cwDelay cwAttempts
            ((shuffleEps unproc).take hunt.toNat) 1 false
          (.ok r.1, r.2)

/-- Embedding of `process_cutoff_upgrades` (upgrade.py lines 41-85):
non-positive `hunt_upgrade_items` and an empty allow-set fail closed;
otherwise the configured mode runs; an invalid mode returns `False`.
The `.error` result models the unparsable-air-date exception escaping
the function. -/
def process_cutoff_upgrades (g : GateEnv) (env : RunEnv)
    (tagEnabled : Bool) (hunt cwDelay cwAttempts : Int) (mode : String)
    (shuffleAvail : List AvailSeason → List AvailSeason)
    (shuffleEps : List Episode → List Episode) :
    Except Unit Bool × List Event :=
  if hunt ≤ 0 then (.ok false, [])
  else
    let allowed := allowedSeriesIds g
    if allowed = [] then (.ok false, [])
    else if mode = "seasons_packs" then
      process_upgrade_seasons_mode env tagEnabled hunt cwDelay cwAttempts
        shuffleAvail allowed
    else if mode = "episodes" then
      process_upgrade_episodes_mode env hunt cwDelay cwAttempts shuffleEps
        allowed
    else (.ok false, [])

theorem eventTargets_nil : eventTargets [] = [] := rfl

theorem eventTargets_append (a b : List Event) :
    eventTargets (a ++ b) = eventTargets a ++ eventTargets b := by
  simp [eventTargets]

theorem eventTargets_replicate_stat (n : Nat) :
    eventTargets (List.replicate n Event.statIncrement) = [] := by
  induction n with
  | zero => rfl
  | succ n ih => simp [List.replicate_succ, eventTargets, eventSeriesTarget]

theorem eventTargets_ite_poll (c : Prop) [Decidable c] (cid : Nat) :
    eventTargets (if c then [Event.poll cid] else []) = [] := by
  by_cases h : c <;> simp [h, eventTargets, eventSeriesTarget]

theorem eventTargets_ite_tag (c : Bool) (sid : Nat) :
    eventTargets (if c then [Event.tagSeries sid] else []) = [] := by
  cases c <;> simp [eventTargets, eventSeriesTarget]

theorem eventTargets_flatMap_addLog (ids : List Nat) :
    eventTargets (ids.flatMap (fun eid =>
      [Event.addProcessed (toString eid), Event.logHistory (toString eid)])) =
      [] := by
  induction ids with
  | nil => rfl
  | cons a t ih => simp [eventTargets, eventSeriesTarget] at ih ⊢; exact ih

theorem eventTargets_flatMap_addStat (eps : List Episode) :
    eventTargets (eps.flatMap (fun ep =>
      [Event.addProcessed (toString ep.epId), Event.statIncrement])) = [] := by
  induction eps with
  | nil => rfl
  | cons a t ih => simp [eventTargets, eventSeriesTarget] at ih ⊢; exact ih

theorem missingSeasonsLoop_targets (env : RunEnv) (tagEnabled : Bool)
    (cwDelay cwAttempts hunt : Int) (P : Nat → Prop) :
    ∀ (l : List SeasonInfo) (i pc : Nat) (pa : Bool),
      (∀ s ∈ l, P s.seriesId) →
      ∀ sid ∈ eventTargets
        (missingSeasonsLoop env tagEnabled cwDelay cwAttempts hunt
          l i pc pa).2, P sid := by
  intro l
  induction l with
  | nil => intro i pc pa _ sid hsid; simp [missingSeasonsLoop, eventTargets] at hsid
  | cons s rest ih =>
    intro i pc pa hl sid hsid
    simp only [missingSeasonsLoop] at hsid
    by_cases h1 : hunt ≤ (pc : Int)
    · simp [h1, eventTargets] at hsid
    · simp only [h1, if_false] at hsid
      by_cases h2 : env.stop i
      · simp [h2, eventTargets] at hsid
      · simp only [h2, Bool.false_eq_true, if_false] at hsid
        by_cases h3 : env.quota i = some true
        · simp [h3, eventTargets] at hsid
        · simp only [h3, if_false] at hsid
          cases hsr : env.searchSeasonRes i with
          | some cid =>
            simp only [hsr] at hsid
            rw [eventTargets_append] at hsid
            rcases List.mem_append.mp hsid with hseg | hrest
            · simp only [eventTargets, List.filterMap_cons, eventSeriesTarget]
                at hseg
              rw [show (List.filterMap eventSeriesTarget
                  ((if tagEnabled then [Event.tagSeries s.seriesId] else []) ++
                    Event.logHistory (seasonKeyStr s.seriesId s.seasonNumber) ::
                    (List.replicate s.count Event.statIncrement ++
                      (if 0 < cwDelay ∧ 0 < cwAttempts then [Event.poll cid]
                        else [])))) = [] from ?_] at hseg
              · simp at hseg
                rw [hseg]
                exact hl s (List.mem_cons_self s rest)
              · rw [List.filterMap_append]
                rw [show List.filterMap eventSeriesTarget
                    (if tagEnabled then [Event.tagSeries s.seriesId] else []) =
                    [] from eventTargets_ite_tag tagEnabled s.seriesId]
                simp only [List.filterMap_cons, eventSeriesTarget,
                  List.filterMap_append]
                rw [show List.filterMap eventSeriesTarget
                    (List.replicate s.count Event.statIncrement) = [] from
                    eventTargets_replicate_stat s.count]
                rw [show List.filterMap eventSeriesTarget
                    (if 0 < cwDelay ∧ 0 < cwAttempts then [Event.poll cid]
                      else []) = [] from eventTargets_ite_poll _ cid]
                rfl
            · exact ih (i + 1) (pc + 1) true
                (fun s2 hs2 => hl s2 (List.mem_cons_of_mem s hs2)) sid hrest
          | none =>
            simp only [hsr] at hsid
            simp only [eventTargets, List.filterMap_cons, eventSeriesTarget]
              at hsid
            rcases List.mem_cons.mp hsid with hhead | htail
            · rw [hhead]; exact hl s (List.mem_cons_self s rest)
            · exact ih (i + 1) pc pa
                (fun s2 hs2 => hl s2 (List.mem_cons_of_mem s hs2)) sid htail

theorem missingShowsLoop_targets (env : RunEnv)
    (skip_future tagEnabled : Bool) (delayDays cwDelay cwAttempts : Int)
    (P : Nat → Prop) :
    ∀ (l : List ShowRec) (i : Nat) (pa : Bool),
      (∀ sh ∈ l, P sh.seriesId) →
      ∀ sid ∈ eventTargets
        (missingShowsLoop env skip_future tagEnabled delayDays cwDelay
          cwAttempts l i pa).2, P sid := by
  intro l
  induction l with
  | nil => intro i pa _ sid hsid; simp [missingShowsLoop, eventTargets] at hsid
  | cons sh rest ih =>
    intro i pa hl sid hsid
    have hl2 : ∀ s2 ∈ rest, P s2.seriesId :=
      fun s2 hs2 => hl s2 (List.mem_cons_of_mem sh hs2)
    have hlh : P sh.seriesId := hl sh (List.mem_cons_self sh rest)
    simp only [missingShowsLoop] at hsid
    split at hsid
    · simp [eventTargets] at hsid
    · split at hsid
      · simp [eventTargets] at hsid
      · split at hsid
        · exact ih (i + 1) pa hl2 sid hsid
        · split at hsid
          · exact ih (i + 1) pa hl2 sid hsid
          · split at hsid
            case _ cid hsr =>
              try dsimp only at hsid
              rw [eventTargets_append] at hsid
              rcases List.mem_append.mp hsid with hseg | hrest
              · simp only [eventTargets, List.filterMap_cons,
                  eventSeriesTarget] at hseg
                rw [List.filterMap_append, List.filterMap_append,
                  List.filterMap_append] at hseg
                rw [show List.filterMap eventSeriesTarget
                    (if tagEnabled then [Event.tagSeries sh.seriesId] else []) =
                    [] from eventTargets_ite_tag tagEnabled sh.seriesId] at hseg
                rw [show List.filterMap eventSeriesTarget
                    (List.flatMap _ (fun eid =>
                      [Event.addProcessed (toString eid),
                       Event.logHistory (toString eid)])) = [] from
                    eventTargets_flatMap_addLog _] at hseg
                rw [show List.filterMap eventSeriesTarget
                    (if 0 < cwDelay ∧ 0 < cwAttempts then [Event.poll cid]
                      else []) = [] from eventTargets_ite_poll _ cid] at hseg
                simp [eventSeriesTarget] at hseg
                rw [hseg]
                exact hlh
              · exact ih (i + 1) true hl2 sid hrest
            case _ hsr =>
              try dsimp only at hsid
              simp only [eventTargets, List.filterMap_cons, eventSeriesTarget]
                at hsid
              rcases List.mem_cons.mp hsid with hhead | htail
              · rw [hhead]; exact hlh
              · exact ih (i + 1) pa hl2 sid htail

theorem missingEpisodesLoop_targets (env : RunEnv)
    (cwDelay cwAttempts : Int) (P : Nat → Prop) :
    ∀ (l : List Episode) (i : Nat) (pa : Bool),
      (∀ ep ∈ l, P ep.gateSeriesId) →
      ∀ sid ∈ eventTargets
        (missingEpisodesLoop env cwDelay cwAttempts l i pa).2, P sid := by
  intro l
  induction l with
  | nil =>
    intro i pa _ sid hsid; simp [missingEpisodesLoop, eventTargets] at hsid
  | cons ep rest ih =>
    intro i pa hl sid hsid
    have hl2 : ∀ e2 ∈ rest, P e2.gateSeriesId :=
      fun e2 he2 => hl e2 (List.mem_cons_of_mem ep he2)
    have hlh : P ep.gateSeriesId := hl ep (List.mem_cons_self ep rest)
    simp only [missingEpisodesLoop] at hsid
    split at hsid
    · simp [eventTargets] at hsid
    · split at hsid
      · simp [eventTargets] at hsid
      · split at hsid
        case _ cid hsr =>
          try dsimp only at hsid
          rw [eventTargets_append] at hsid
          rcases List.mem_append.mp hsid with hseg | hrest
          · simp only [eventTargets, List.filterMap_cons, eventSeriesTarget]
              at hseg
            rw [show List.filterMap eventSeriesTarget
                (if 0 < cwDelay ∧ 0 < cwAttempts then [Event.poll cid]
                  else []) = [] from eventTargets_ite_poll _ cid] at hseg
            simp at hseg
            rw [hseg]
            exact hlh
          · exact ih (i + 1) true hl2 sid hrest
        case _ hsr =>
          try dsimp only at hsid
          simp only [eventTargets, List.filterMap_cons, eventSeriesTarget]
            at hsid
          rcases List.mem_cons.mp hsid with hhead | htail
          · rw [hhead]; exact hlh
          · exact ih (i + 1) pa hl2 sid htail

theorem upgradeSeasonsLoop_targets (env : RunEnv) (tagEnabled : Bool)
    (cwDelay cwAttempts : Int) (P : Nat → Prop) :
    ∀ (l : List AvailSeason) (i : Nat) (pa : Bool),
      (∀ s ∈ l, P s.seriesId) →
      ∀ sid ∈ eventTargets
        (upgradeSeasonsLoop env tagEnabled cwDelay cwAttempts l i pa).2,
        P sid := by
  intro l
  induction l with
  | nil =>
    intro i pa _ sid hsid; simp [upgradeSeasonsLoop, eventTargets] at hsid
  | cons s rest ih =>
    intro i pa hl sid hsid
    have hl2 : ∀ s2 ∈ rest, P s2.seriesId :=
      fun s2 hs2 => hl s2 (List.mem_cons_of_mem s hs2)
    have hlh : P s.seriesId := hl s (List.mem_cons_self s rest)
    have hsucc : ∀ (pollEv : List Event) (cid : Nat) (pa2 : Bool),
        eventTargets pollEv = [] →
        sid ∈ eventTargets
          ((Event.searchSeason s.seriesId (some s.seasonNumber) ::
            (pollEv ++
              (if tagEnabled then [Event.tagSeries s.seriesId] else []) ++
              [Event.logHistory (seasonKeyStr s.seriesId (some s.seasonNumber)),
               Event.addProcessed
                 (seasonKeyStr s.seriesId (some s.seasonNumber))] ++
              s.eps.flatMap (fun ep =>
                [Event.addProcessed (toString ep.epId),
                 Event.statIncrement]))) ++
            (upgradeSeasonsLoop env tagEnabled cwDelay cwAttempts rest
              (i + 1) pa2).2) → P sid := by
      intro pollEv cid pa2 hpoll hmem
      rw [eventTargets_append] at hmem
      rcases List.mem_append.mp hmem with hseg | hrest
      · simp only [eventTargets, List.filterMap_cons, eventSeriesTarget]
          at hseg
        rw [List.filterMap_append, List.filterMap_append,
          List.filterMap_append] at hseg
        rw [show List.filterMap eventSeriesTarget pollEv = [] from hpoll]
          at hseg
        rw [show List.filterMap eventSeriesTarget
            (if tagEnabled then [Event.tagSeries s.seriesId] else []) =
            [] from eventTargets_ite_tag tagEnabled s.seriesId] at hseg
        rw [show List.filterMap eventSeriesTarget
            (List.flatMap s.eps (fun ep =>
              [Event.addProcessed (toString ep.epId),
               Event.statIncrement])) = [] from
            eventTargets_flatMap_addStat s.eps] at hseg
        simp [eventSeriesTarget] at hseg
        rw [hseg]
        exact hlh
      · exact ih (i + 1) pa2 hl2 sid hrest
    simp only [upgradeSeasonsLoop] at hsid
    split at hsid
    · simp [eventTargets] at hsid
    · split at hsid
      · simp [eventTargets] at hsid
      · split at hsid
        case _ cid hsr =>
          split at hsid
          case isTrue hcw =>
            split at hsid
            case isTrue hok =>
              try dsimp only at hsid
              exact hsucc [Event.poll cid] cid true
                (by simp [eventTargets, eventSeriesTarget]) hsid
            case isFalse hok =>
              try dsimp only at hsid
              rw [eventTargets_append] at hsid
              rcases List.mem_append.mp hsid with hseg | hrest
              · simp [eventTargets, eventSeriesTarget] at hseg
                rw [hseg]; exact hlh
              · exact ih (i + 1) pa hl2 sid hrest
          case isFalse hcw =>
            rw [if_pos rfl] at hsid
            try dsimp only at hsid
            exact hsucc [] cid true rfl hsid
        case _ hsr =>
          try dsimp only at hsid
          simp only [eventTargets, List.filterMap_cons, eventSeriesTarget]
            at hsid
          rcases List.mem_cons.mp hsid with hhead | htail
          · rw [hhead]; exact hlh
          · exact ih (i + 1) pa hl2 sid htail

theorem upgradeEpisodesLoop_targets (env : RunEnv)
    (cwDelay cwAttempts : Int) (P : Nat → Prop) :
    ∀ (l : List Episode) (i : Nat) (pa : Bool),
      (∀ ep ∈ l, P ep.gateSeriesId) →
      ∀ sid ∈ eventTargets
        (upgradeEpisodesLoop env cwDelay cwAttempts l i pa).2, P sid := by
  intro l
  induction l with
  | nil =>
    intro i pa _ sid hsid; simp [upgradeEpisodesLoop, eventTargets] at hsid
  | cons ep rest ih =>
    intro i pa hl sid hsid
    have hl2 : ∀ e2 ∈ rest, P e2.gateSeriesId :=
      fun e2 he2 => hl e2 (List.mem_cons_of_mem ep he2)
    have hlh : P ep.gateSeriesId := hl ep (List.mem_cons_self ep rest)
    have hsucc : ∀ (pollEv : List Event) (pa2 : Bool),
        eventTargets pollEv = [] →
        sid ∈ eventTargets
          ((Event.searchEpisodes ep.gateSeriesId [ep.epId] ::
            (pollEv ++
              [Event.addProcessed (toString ep.epId),
               Event.logHistory (toString ep.epId),
               Event.statIncrement])) ++
            (upgradeEpisodesLoop env cwDelay cwAttempts rest (i + 1) pa2).2) →
        P sid := by
      intro pollEv pa2 hpoll hmem
      rw [eventTargets_append] at hmem
      rcases List.mem_append.mp hmem with hseg | hrest
      · simp only [eventTargets, List.filterMap_cons, eventSeriesTarget]
          at hseg
        rw [List.filterMap_append] at hseg
        rw [show List.filterMap eventSeriesTarget pollEv = [] from hpoll]
          at hseg
        simp [eventSeriesTarget] at hseg
        rw [hseg]
        exact hlh
      · exact ih (i + 1) pa2 hl2 sid hrest
    simp only [upgradeEpisodesLoop] at hsid
    split at hsid
    · simp [eventTargets] at hsid
    · split at hsid
      · simp [eventTargets] at hsid
      · split at hsid
        case _ cid hsr =>
          split at hsid
          case isTrue hcw =>
            split at hsid
            case isTrue hok =>
              try dsimp only at hsid
              exact hsucc [Event.poll cid] true
                (by simp [eventTargets, eventSeriesTarget]) hsid
            case isFalse hok =>
              try dsimp only at hsid
              rw [eventTargets_append] at hsid
              rcases List.mem_append.mp hsid with hseg | hrest
              · simp [eventTargets, eventSeriesTarget] at hseg
                rw [hseg]; exact hlh
              · exact ih (i + 1) pa hl2 sid hrest
          case isFalse hcw =>
            rw [if_pos rfl] at hsid
            try dsimp only at hsid
            exact hsucc [] true rfl hsid
        case _ hsr =>
          try dsimp only at hsid
          simp only [eventTargets, List.filterMap_cons, eventSeriesTarget]
            at hsid
          rcases List.mem_cons.mp hsid with hhead | htail
          · rw [hhead]; exact hlh
          · exact ih (i + 1) pa hl2 sid htail

theorem bumpSeason_mem (sid : Nat) (sn : Option Nat) (t : String) :
    ∀ (acc : List SeasonInfo) (s : SeasonInfo), s ∈ bumpSeason sid sn t acc →
      s.seriesId = sid ∨ ∃ s2 ∈ acc, s2.seriesId = s.seriesId := by
  intro acc
  induction acc with
  | nil =>
    intro s hs
    simp only [bumpSeason, List.mem_singleton] at hs
    left; rw [hs]
  | cons a rest ih =>
    intro s hs
    simp only [bumpSeason] at hs
    split at hs
    · rcases List.mem_cons.mp hs with h | h
      · right; exact ⟨a, List.mem_cons_self _ _, by rw [h]⟩
      · right; exact ⟨s, List.mem_cons_of_mem a h, rfl⟩
    · rcases List.mem_cons.mp hs with h | h
      · right; exact ⟨a, List.mem_cons_self _ _, by rw [h]⟩
      · rcases ih s h with h1 | ⟨s2, hs2, he⟩
        · left; exact h1
        · right; exact ⟨s2, List.mem_cons_of_mem a hs2, he⟩

theorem groupSeasonsAux_mem (mo : Bool) :
    ∀ (l : List Episode) (acc : List SeasonInfo) (s : SeasonInfo),
      s ∈ l.foldl (fun acc ep =>
        if mo ∧ ep.monitored = false then acc
        else
          match ep.seriesId with
          | none => acc
          | some 0 => acc
          | some sid => bumpSeason sid ep.seasonNumber ep.seriesTitle acc)
        acc →
      (∃ ep ∈ l, ep.seriesId = some s.seriesId) ∨
        ∃ s2 ∈ acc, s2.seriesId = s.seriesId := by
  intro l
  induction l with
  | nil => intro acc s hs; right; exact ⟨s, hs, rfl⟩
  | cons ep rest ih =>
    intro acc s hs
    rw [List.foldl_cons] at hs
    by_cases hguard : mo ∧ ep.monitored = false
    · rw [if_pos hguard] at hs
      rcases ih acc s hs with ⟨ep2, h2, he⟩ | hres
      · exact Or.inl ⟨ep2, List.mem_cons_of_mem _ h2, he⟩
      · exact Or.inr hres
    · rw [if_neg hguard] at hs
      cases hsid : ep.seriesId with
      | none =>
        rw [hsid] at hs
        rcases ih acc s hs with ⟨ep2, h2, he⟩ | hres
        · exact Or.inl ⟨ep2, List.mem_cons_of_mem _ h2, he⟩
        · exact Or.inr hres
      | some sid =>
        rw [hsid] at hs
        cases sid with
        | zero =>
          rcases ih acc s hs with ⟨ep2, h2, he⟩ | hres
          · exact Or.inl ⟨ep2, List.mem_cons_of_mem _ h2, he⟩
          · exact Or.inr hres
        | succ n =>
          rcases ih (bumpSeason (n + 1) ep.seasonNumber ep.seriesTitle acc)
            s hs with ⟨ep2, h2, he⟩ | ⟨s2, hs2, he⟩
          · exact Or.inl ⟨ep2, List.mem_cons_of_mem _ h2, he⟩
          · rcases bumpSeason_mem _ _ _ acc s2 hs2 with h | ⟨s3, hs3, he3⟩
            · exact Or.inl ⟨ep, List.mem_cons_self _ _, by rw [hsid, ← he, h]⟩
            · exact Or.inr ⟨s3, hs3, he3.trans he⟩

theorem groupSeasons_mem (mo : Bool) (l : List Episode) (s : SeasonInfo)
    (hs : s ∈ groupSeasons mo l) :
    ∃ ep ∈ l, ep.seriesId = some s.seriesId := by
  rcases groupSeasonsAux_mem mo l [] s hs with h | ⟨s2, h2, _⟩
  · exact h
  · simp at h2

theorem bumpOuter_keys (sid sn : Nat) (ep : Episode) :
    ∀ (acc : List (Nat × List (Nat × List Episode)))
      (p : Nat × List (Nat × List Episode)), p ∈ bumpOuter sid sn ep acc →
      p.1 = sid ∨ ∃ q ∈ acc, q.1 = p.1 := by
  intro acc
  induction acc with
  | nil =>
    intro p hp
    simp only [bumpOuter, List.mem_singleton] at hp
    left; rw [hp]
  | cons a rest ih =>
    intro p hp
    simp only [bumpOuter] at hp
    split at hp
    · rcases List.mem_cons.mp hp with h | h
      · right; exact ⟨a, List.mem_cons_self _ _, by rw [h]⟩
      · right; exact ⟨p, List.mem_cons_of_mem a h, rfl⟩
    · rcases List.mem_cons.mp hp with h | h
      · right; exact ⟨a, List.mem_cons_self _ _, by rw [h]⟩
      · rcases ih p h with h1 | ⟨q, hq, he⟩
        · left; exact h1
        · right; exact ⟨q, List.mem_cons_of_mem a hq, he⟩

theorem groupUpgradeSeasonsAux_mem :
    ∀ (l : List Episode) (acc : List (Nat × List (Nat × List Episode)))
      (p : Nat × List (Nat × List Episode)),
      p ∈ l.foldl (fun acc ep =>
        match ep.seriesId, ep.seasonNumber with
        | some sid, some sn => bumpOuter sid sn ep acc
        | _, _ => acc) acc →
      (∃ ep ∈ l, ep.seriesId = some p.1) ∨ ∃ q ∈ acc, q.1 = p.1 := by
  intro l
  induction l with
  | nil => intro acc p hp; right; exact ⟨p, hp, rfl⟩
  | cons ep rest ih =>
    intro acc p hp
    rw [List.foldl_cons] at hp
    cases hsid : ep.seriesId with
    | none =>
      rw [hsid] at hp
      rcases ih acc p hp with ⟨ep2, h2, he⟩ | hres
      · exact Or.inl ⟨ep2, List.mem_cons_of_mem _ h2, he⟩
      · exact Or.inr hres
    | some sid =>
      rw [hsid] at hp
      cases hsn : ep.seasonNumber with
      | none =>
        rw [hsn] at hp
        rcases ih acc p hp with ⟨ep2, h2, he⟩ | hres
        · exact Or.inl ⟨ep2, List.mem_cons_of_mem _ h2, he⟩
        · exact Or.inr hres
      | some sn =>
        rw [hsn] at hp
        rcases ih (bumpOuter sid sn ep acc) p hp with ⟨ep2, h2, he⟩ |
          ⟨q, hq, he⟩
        · exact Or.inl ⟨ep2, List.mem_cons_of_mem _ h2, he⟩
        · rcases bumpOuter_keys sid sn ep acc q hq with h | ⟨q2, hq2, he2⟩
          · exact Or.inl ⟨ep, List.mem_cons_self _ _, by rw [hsid, ← he, h]⟩
          · exact Or.inr ⟨q2, hq2, he2.trans he⟩

theorem availSeasons_mem (g : List (Nat × List (Nat × List Episode)))
    (a : AvailSeason) (ha : a ∈ availSeasons g) : ∃ p ∈ g, p.1 = a.seriesId := by
  rcases List.mem_flatMap.mp ha with ⟨p, hp, hin⟩
  rcases List.mem_map.mp hin with ⟨q, _, he⟩
  exact ⟨p, hp, by rw [← he]⟩

theorem groupUpgradeSeasons_target (l : List Episode) (a : AvailSeason)
    (ha : a ∈ availSeasons (groupUpgradeSeasons l)) :
    ∃ ep ∈ l, ep.seriesId = some a.seriesId := by
  rcases availSeasons_mem _ a ha with ⟨p, hp, he⟩
  rcases groupUpgradeSeasonsAux_mem l [] p hp with h | ⟨q, hq, _⟩
  · rcases h with ⟨ep, hep, hid⟩
    exact ⟨ep, hep, by rw [hid, he]⟩
  · simp at hq

theorem seasons_mode_targets (env : RunEnv) (mo sf te : Bool)
    (hunt cwd cwa : Int) (sortf shuffle : List SeasonInfo → List SeasonInfo)
    (allowed : List Nat)
    (hsort : ∀ l, (sortf l).Perm l) (hshuffle : ∀ l, (shuffle l).Perm l) :
    ∀ sid ∈ eventTargets
      (process_missing_seasons_packs_mode env mo sf te hunt cwd cwa sortf
        shuffle allowed).2, sid ∈ allowed := by
  intro sid hsid
  simp only [process_missing_seasons_packs_mode] at hsid
  repeat' split at hsid
  all_goals first
  | (simp [eventTargets] at hsid; done)
  | (refine missingSeasonsLoop_targets env te cwd cwa hunt
      (· ∈ allowed) _ 0 0 false ?_ sid hsid
     intro s hsmem
     have h1 := (hshuffle _).mem_iff.mp hsmem
     have h2 := (List.mem_filter.mp h1).1
     have h3 := (hsort _).mem_iff.mp h2
     obtain ⟨ep, hep, hid⟩ := groupSeasons_mem mo _ s h3
     have hgate : ep.gateSeriesId ∈ allowed := by
       first
       | exact of_decide_eq_true (List.mem_filter.mp hep).2
       | exact of_decide_eq_true
           (List.mem_filter.mp (List.mem_filter.mp hep).1).2
     have heq : ep.gateSeriesId = s.seriesId := by
       simp [Episode.gateSeriesId, hid]
     rwa [heq] at hgate)

theorem shows_mode_targets (env : RunEnv) (sf te : Bool)
    (hunt dd cwd cwa : Int) (sample : List ShowRec → Nat → List ShowRec)
    (allowed : List Nat)
    (hsample : ∀ l k x, x ∈ sample l k → x ∈ l) :
    ∀ sid ∈ eventTargets
      (process_missing_shows_mode env sf te hunt dd cwd cwa sample
        allowed).2, sid ∈ allowed := by
  intro sid hsid
  simp only [process_missing_shows_mode] at hsid
  repeat' split at hsid
  all_goals first
  | (simp [eventTargets] at hsid; done)
  | (refine missingShowsLoop_targets env sf te dd cwd cwa
      (· ∈ allowed) _ 0 false ?_ sid hsid
     intro sh hshmem
     have h1 := hsample _ _ sh hshmem
     have h2 := (List.mem_filter.mp h1).1
     exact of_decide_eq_true (List.mem_filter.mp h2).2)

theorem episodes_mode_targets (env : RunEnv) (sf : Bool)
    (hunt dd cwd cwa : Int) (shuffleEps : List Episode → List Episode)
    (allowed : List Nat)
    (hshuffle : ∀ l, (shuffleEps l).Perm l) :
    ∀ sid ∈ eventTargets
      (process_missing_episodes_mode env sf hunt dd cwd cwa shuffleEps
        allowed).2, sid ∈ allowed := by
  intro sid hsid
  simp only [process_missing_episodes_mode] at hsid
  repeat' split at hsid
  all_goals first
  | (simp [eventTargets] at hsid; done)
  | (refine missingEpisodesLoop_targets env cwd cwa
      (· ∈ allowed) _ 0 false ?_ sid hsid
     intro ep hepmem
     have h1 := (List.take_sublist _ _).subset hepmem
     have h2 := (hshuffle _).mem_iff.mp h1
     have h3 := (List.mem_filter.mp h2).1
     first
     | exact of_decide_eq_true (List.mem_filter.mp h3).2
     | exact of_decide_eq_true
         (List.mem_filter.mp (List.mem_filter.mp h3).1).2
     | exact of_decide_eq_true
         (List.mem_filter.mp
           (List.mem_filter.mp (List.mem_filter.mp h3).1).1).2)

theorem upgrade_seasons_mode_targets (env : RunEnv) (te : Bool)
    (hunt cwd cwa : Int) (shuffleAvail : List AvailSeason → List AvailSeason)
    (allowed : List Nat)
    (hshuffle : ∀ l, (shuffleAvail l).Perm l) :
    ∀ sid ∈ eventTargets
      (process_upgrade_seasons_mode env te hunt cwd cwa shuffleAvail
        allowed).2, sid ∈ allowed := by
  intro sid hsid
  simp only [process_upgrade_seasons_mode] at hsid
  repeat' split at hsid
  all_goals first
  | (simp [eventTargets] at hsid; done)
  | (try dsimp only at hsid
     refine upgradeSeasonsLoop_targets env te cwd cwa
       (· ∈ allowed) _ 1 false ?_ sid hsid
     intro s hsmem
     have h1 := (List.take_sublist _ _).subset hsmem
     have h2 := (hshuffle _).mem_iff.mp h1
     have h3 := (List.mem_filter.mp h2).1
     obtain ⟨ep, hep, hid⟩ := groupUpgradeSeasons_target _ s h3
     have hep1 := (List.mem_filter.mp hep).1
     have hgate := of_decide_eq_true (List.mem_filter.mp hep1).2
     have heq : ep.gateSeriesId = s.seriesId := by
       simp [Episode.gateSeriesId, hid]
     rwa [heq] at hgate)

theorem upgrade_episodes_mode_targets (env : RunEnv)
    (hunt cwd cwa : Int) (shuffleEps : List Episode → List Episode)
    (allowed : List Nat)
    (hshuffle : ∀ l, (shuffleEps l).Perm l) :
    ∀ sid ∈ eventTargets
      (process_upgrade_episodes_mode env hunt cwd cwa shuffleEps
        allowed).2, sid ∈ allowed := by
  intro sid hsid
  simp only [process_upgrade_episodes_mode] at hsid
  repeat' split at hsid
  all_goals first
  | (simp [eventTargets] at hsid; done)
  | (try dsimp only at hsid
     refine upgradeEpisodesLoop_targets env cwd cwa
       (· ∈ allowed) _ 1 false ?_ sid hsid
     intro ep hepmem
     have h1 := (List.take_sublist _ _).subset hepmem
     have h2 := (hshuffle _).mem_iff.mp h1
     have h3 := (List.mem_filter.mp h2).1
     have h4 := (List.mem_filter.mp h3).1
     exact of_decide_eq_true (List.mem_filter.mp h4).2)


/-- C1: tag-gate fail-closed invariant. If the tag gate yields an
empty allow-set (tag absent or no series tagged), both orchestrators
return `False` with an empty event trace, so zero search commands are
dispatched; and in every mode every dispatched search command targets
a series whose id is in the allow-set. `sortf`, the shuffles and
`sampleShows` stand for the random-order collaborators and are only
assumed to permute or subselect their input. -/
theorem C1_tag_gate_fail_closed (g : GateEnv) (env : RunEnv)
    (mo sf te : Bool) (hunt dd cwd cwa : Int) (mode : String)
    (sortf shufS : List SeasonInfo → List SeasonInfo)
    (sampleShows : List ShowRec → Nat → List ShowRec)
    (shufE : List Episode → List Episode)
    (shufA : List AvailSeason → List AvailSeason)
    (hsort : ∀ l, (sortf l).Perm l)
    (hshufS : ∀ l, (shufS l).Perm l)
    (hsample : ∀ l k x, x ∈ sampleShows l k → x ∈ l)
    (hshufE : ∀ l, (shufE l).Perm l)
    (hshufA : ∀ l, (shufA l).Perm l) :
    (allowedSeriesIds g = [] →
      process_missing_episodes g env mo sf te hunt dd cwd cwa mode sortf
        shufS sampleShows shufE = (false, []) ∧
      process_cutoff_upgrades g env te hunt cwd cwa mode shufA shufE =
        (.ok false, [])) ∧
    (∀ sid ∈ eventTargets
      (process_missing_episodes g env mo sf te hunt dd cwd cwa mode sortf
        shufS sampleShows shufE).2, sid ∈ allowedSeriesIds g) ∧
    (∀ sid ∈ eventTargets
      (process_cutoff_upgrades g env te hunt cwd cwa mode shufA
        shufE).2, sid ∈ allowedSeriesIds g) := by
  refine ⟨?_, ?_, ?_⟩
  · intro hempty
    constructor
    · simp only [process_missing_episodes, hempty]
      by_cases hh : hunt ≤ 0 <;> simp [hh]
    · simp only [process_cutoff_upgrades, hempty]
      by_cases hh : hunt ≤ 0 <;> simp [hh]
  · intro sid hsid
    simp only [process_missing_episodes] at hsid
    split at hsid
    · simp [eventTargets] at hsid
    · split at hsid
      · simp [eventTargets] at hsid
      · split at hsid
        · exact seasons_mode_targets env mo sf te hunt cwd cwa sortf shufS
            (allowedSeriesIds g) hsort hshufS sid hsid
        · split at hsid
          · exact shows_mode_targets env sf te hunt dd cwd cwa sampleShows
              (allowedSeriesIds g) hsample sid hsid
          · split at hsid
            · exact episodes_mode_targets env sf hunt dd cwd cwa shufE
                (allowedSeriesIds g) hshufE sid hsid
            · simp [eventTargets] at hsid
  · intro sid hsid
    simp only [process_cutoff_upgrades] at hsid
    split at hsid
    · simp [eventTargets] at hsid
    · split at hsid
      · simp [eventTargets] at hsid
      · split at hsid
        · exact upgrade_seasons_mode_targets env te hunt cwd cwa shufA
            (allowedSeriesIds g) hshufA sid hsid
        · split at hsid
          · exact upgrade_episodes_mode_targets env hunt cwd cwa shufE
              (allowedSeriesIds g) hshufE sid hsid
          · simp [eventTargets] at hsid

/-- Trivial collaborator environment used by witnesses. -/
def envW : RunEnv :=
  ⟨[], [], 0, fun _ => false, fun _ => false, fun _ => some false,
   fun _ => none, fun _ => none, fun _ => false⟩

/-- Witness for C1: with a failed tag fetch the allow-set is empty and
both orchestrators return `False` with zero dispatched commands. -/
theorem C1_tag_gate_fail_closed_witness :
    process_missing_episodes ⟨"search", none, none⟩ envW true true true
      5 0 1 600 "seasons_packs" id id (fun l k => l.take k) id =
      (false, []) ∧
    process_cutoff_upgrades ⟨"search", none, none⟩ envW true 5 1 600
      "seasons_packs" id id = (.ok false, []) := by
  have h := C1_tag_gate_fail_closed ⟨"search", none, none⟩ envW true true
    true 5 0 1 600 "seasons_packs" id id (fun l k => l.take k) id id
    (fun l => List.Perm.refl l) (fun l => List.Perm.refl l)
    (fun l k x hx => (List.take_sublist k l).subset hx)
    (fun l => List.Perm.refl l) (fun l => List.Perm.refl l)
  exact h.1 (by decide)

/-- Season-key (series id, season number) of a season-search dispatch
event. -/
def seasonKeyOfEvent : Event → Option (Nat × Option Nat)
  | .searchSeason sid sn => some (sid, sn)
  | _ => none

/-- Series id of an episode-search dispatch event. -/
def showKeyOfEvent : Event → Option Nat
  | .searchEpisodes sid _ => some sid
  | _ => none

theorem seasonKey_replicate_stat (n : Nat) :
    (List.replicate n Event.statIncrement).filterMap seasonKeyOfEvent = [] := by
  induction n with
  | zero => rfl
  | succ n ih => simp [List.replicate_succ, seasonKeyOfEvent, ih]

theorem seasonKey_seg_tail (s : SeasonInfo) (cid : Nat) (te : Bool)
    (cwDelay cwAttempts : Int) :
    List.filterMap seasonKeyOfEvent
      (Event.addProcessed (seasonKeyStr s.seriesId s.seasonNumber) ::
        ((if te then [Event.tagSeries s.seriesId] else []) ++
          Event.logHistory (seasonKeyStr s.seriesId s.seasonNumber) ::
          (List.replicate s.count Event.statIncrement ++
            (if 0 < cwDelay ∧ 0 < cwAttempts then [Event.poll cid]
              else [])))) = [] := by
  cases te <;> by_cases hcw : 0 < cwDelay ∧ 0 < cwAttempts <;>
    simp [hcw, seasonKeyOfEvent, List.filterMap_append,
      seasonKey_replicate_stat]

theorem missingSeasonsLoop_keys_sublist (env : RunEnv) (te : Bool)
    (cwd cwa hunt : Int) :
    ∀ (l : List SeasonInfo) (i pc : Nat) (pa : Bool),
      ((missingSeasonsLoop env te cwd cwa hunt l i pc pa).2.filterMap
        seasonKeyOfEvent).Sublist
        (l.map (fun s => (s.seriesId, s.seasonNumber))) := by
  intro l
  induction l with
  | nil => intro i pc pa; simp [missingSeasonsLoop]
  | cons s rest ih =>
    intro i pc pa
    simp only [missingSeasonsLoop]
    split
    · simp
    · split
      · simp
      · split
        · simp
        · split
          case _ cid hsr =>
            try dsimp only
            rw [show (Event.searchSeason s.seriesId s.seasonNumber ::
                Event.addProcessed (seasonKeyStr s.seriesId s.seasonNumber) ::
                ((if te then [Event.tagSeries s.seriesId] else []) ++
                  Event.logHistory (seasonKeyStr s.seriesId s.seasonNumber) ::
                  (List.replicate s.count Event.statIncrement ++
                    (if 0 < cwd ∧ 0 < cwa then [Event.poll cid] else [])))) ++
                (missingSeasonsLoop env te cwd cwa hunt rest (i + 1)
                  (pc + 1) true).2 =
              Event.searchSeason s.seriesId s.seasonNumber ::
                ((Event.addProcessed
                    (seasonKeyStr s.seriesId s.seasonNumber) ::
                  ((if te then [Event.tagSeries s.seriesId] else []) ++
                    Event.logHistory
                      (seasonKeyStr s.seriesId s.seasonNumber) ::
                    (List.replicate s.count Event.statIncrement ++
                      (if 0 < cwd ∧ 0 < cwa then [Event.poll cid]
                        else [])))) ++
                  (missingSeasonsLoop env te cwd cwa hunt rest (i + 1)
                    (pc + 1) true).2) from by simp]
            rw [List.filterMap_cons, List.filterMap_append]
            rw [seasonKey_seg_tail s cid te cwd cwa]
            simp only [seasonKeyOfEvent, List.nil_append, List.map_cons]
            exact (ih (i + 1) (pc + 1) true).cons₂ _
          case _ hsr =>
            try dsimp only
            rw [List.filterMap_cons]
            simp only [seasonKeyOfEvent, List.map_cons]
            exact (ih (i + 1) pc pa).cons₂ _

theorem showKey_flatMap_addLog (ids : List Nat) :
    (ids.flatMap (fun eid =>
      [Event.addProcessed (toString eid),
       Event.logHistory (toString eid)])).filterMap showKeyOfEvent = [] := by
  induction ids with
  | nil => rfl
  | cons a t ih => simp [showKeyOfEvent] at ih ⊢; exact ih

theorem showKey_seg_tail (sh : ShowRec) (epIds : List Nat) (cid : Nat)
    (te : Bool) (cwDelay cwAttempts : Int) :
    List.filterMap showKeyOfEvent
      ((if te then [Event.tagSeries sh.seriesId] else []) ++
        epIds.flatMap (fun eid =>
          [Event.addProcessed (toString eid),
           Event.logHistory (toString eid)]) ++
        [Event.addProcessed (toString sh.seriesId),
         Event.logHistory (toString sh.seriesId),
         Event.statIncrement] ++
        (if 0 < cwDelay ∧ 0 < cwAttempts then [Event.poll cid] else [])) =
      [] := by
  cases te <;> by_cases hcw : 0 < cwDelay ∧ 0 < cwAttempts <;>
    simp [hcw, showKeyOfEvent, List.filterMap_append, showKey_flatMap_addLog]

theorem missingShowsLoop_keys_sublist (env : RunEnv) (sf te : Bool)
    (dd cwd cwa : Int) :
    ∀ (l : List ShowRec) (i : Nat) (pa : Bool),
      ((missingShowsLoop env sf te dd cwd cwa l i pa).2.filterMap
        showKeyOfEvent).Sublist (l.map ShowRec.seriesId) := by
  intro l
  induction l with
  | nil => intro i pa; simp [missingShowsLoop]
  | cons sh rest ih =>
    intro i pa
    simp only [missingShowsLoop]
    split
    · simp
    · split
      · simp
      · split
        · exact (ih (i + 1) pa).cons _
        · split
          · exact (ih (i + 1) pa).cons _
          · split
            case _ cid hsr =>
              try dsimp only
              rw [show (Event.searchEpisodes sh.seriesId
                  (showEligibleIds env sf dd sh) ::
                  ((if te then [Event.tagSeries sh.seriesId] else []) ++
                    (showEligibleIds env sf dd sh).flatMap (fun eid =>
                      [Event.addProcessed (toString eid),
                       Event.logHistory (toString eid)]) ++
                    [Event.addProcessed (toString sh.seriesId),
                     Event.logHistory (toString sh.seriesId),
                     Event.statIncrement] ++
                    (if 0 < cwd ∧ 0 < cwa then [Event.poll cid] else []))) ++
                  (missingShowsLoop env sf te dd cwd cwa rest (i + 1)
                    true).2 =
                Event.searchEpisodes sh.seriesId
                    (showEligibleIds env sf dd sh) ::
                  (((if te then [Event.tagSeries sh.seriesId] else []) ++
                    (showEligibleIds env sf dd sh).flatMap (fun eid =>
                      [Event.addProcessed (toString eid),
                       Event.logHistory (toString eid)]) ++
                    [Event.addProcessed (toString sh.seriesId),
                     Event.logHistory (toString sh.seriesId),
                     Event.statIncrement] ++
                    (if 0 < cwd ∧ 0 < cwa then [Event.poll cid] else [])) ++
                    (missingShowsLoop env sf te dd cwd cwa rest (i + 1)
                      true).2) from by simp]
              rw [List.filterMap_cons, List.filterMap_append]
              rw [showKey_seg_tail sh _ cid te cwd cwa]
              simp only [showKeyOfEvent, List.nil_append, List.map_cons]
              exact (ih (i + 1) true).cons₂ _
            case _ hsr =>
              try dsimp only
              rw [List.filterMap_cons]
              simp only [showKeyOfEvent, List.map_cons]
              exact (ih (i + 1) pa).cons₂ _

theorem bumpSeason_keys (sid : Nat) (sn : Option Nat) (t : String) :
    ∀ (acc : List SeasonInfo),
      (bumpSeason sid sn t acc).map (fun s => (s.seriesId, s.seasonNumber)) =
        if (sid, sn) ∈ acc.map (fun s => (s.seriesId, s.seasonNumber)) then
          acc.map (fun s => (s.seriesId, s.seasonNumber))
        else acc.map (fun s => (s.seriesId, s.seasonNumber)) ++ [(sid, sn)] := by
  intro acc
  induction acc with
  | nil => simp [bumpSeason]
  | cons a rest ih =>
    simp only [bumpSeason]
    split
    case isTrue h =>
      obtain ⟨h1, h2⟩ := h
      simp [List.map_cons, h1, h2]
    case isFalse h =>
      have hne : ¬((sid, sn) = (a.seriesId, a.seasonNumber)) := by
        intro hcon
        exact h ⟨(Prod.mk.injEq _ _ _ _ |>.mp hcon).1.symm,
          (Prod.mk.injEq _ _ _ _ |>.mp hcon).2.symm⟩
      by_cases hmem : (sid, sn) ∈ rest.map (fun s => (s.seriesId, s.seasonNumber))
      · simp [List.map_cons, ih, hmem, hne]
      · simp [List.map_cons, ih, hmem, hne]

theorem bumpSeason_keys_nodup (sid : Nat) (sn : Option Nat) (t : String)
    (acc : List SeasonInfo)
    (h : (acc.map (fun s => (s.seriesId, s.seasonNumber))).Nodup) :
    ((bumpSeason sid sn t acc).map
      (fun s => (s.seriesId, s.seasonNumber))).Nodup := by
  rw [bumpSeason_keys]
  split
  · exact h
  case isFalse h2 =>
    refine h.append (List.nodup_singleton _) ?_
    intro x hx hx2
    simp only [List.mem_singleton] at hx2
    subst hx2
    exact h2 hx

theorem groupSeasonsAux_keys_nodup (mo : Bool) :
    ∀ (l : List Episode) (acc : List SeasonInfo),
      (acc.map (fun s => (s.seriesId, s.seasonNumber))).Nodup →
      ((l.foldl (fun acc ep =>
        if mo ∧ ep.monitored = false then acc
        else
          match ep.seriesId with
          | none => acc
          | some 0 => acc
          | some sid => bumpSeason sid ep.seasonNumber ep.seriesTitle acc)
        acc).map (fun s => (s.seriesId, s.seasonNumber))).Nodup := by
  intro l
  induction l with
  | nil => intro acc h; exact h
  | cons ep rest ih =>
    intro acc h
    rw [List.foldl_cons]
    by_cases hguard : mo ∧ ep.monitored = false
    · rw [if_pos hguard]; exact ih acc h
    · rw [if_neg hguard]
      cases hsid : ep.seriesId with
      | none => exact ih acc h
      | some sid =>
        cases sid with
        | zero => exact ih acc h
        | succ n =>
          exact ih _ (bumpSeason_keys_nodup (n + 1) ep.seasonNumber
            ep.seriesTitle acc h)

theorem groupSeasons_keys_nodup (mo : Bool) (l : List Episode) :
    ((groupSeasons mo l).map (fun s => (s.seriesId, s.seasonNumber))).Nodup :=
  groupSeasonsAux_keys_nodup mo l [] List.nodup_nil

/-- C5: processed-ID de-duplication in the two cited modes. In season
pack mode every dispatched season's processed-ID key tested `False` in
the processed store at the start of the cycle, and the dispatched
(series, season) keys are pairwise distinct, so a season id added by
`add_processed_id` after its dispatch is never dispatched again within
the cycle. In show mode the same holds for show ids, provided the
candidate pool lists each series id once (as the remote series list
does). `random.sample` is assumed to return a permutation of a
sublist of its input. -/
theorem C5_processed_id_dedup (env : RunEnv) (mo sf te : Bool)
    (hunt dd cwd cwa : Int)
    (sortf shuffle : List SeasonInfo → List SeasonInfo)
    (sample : List ShowRec → Nat → List ShowRec) (allowed : List Nat)
    (hsort : ∀ l, (sortf l).Perm l) (hshuffle : ∀ l, (shuffle l).Perm l)
    (hsample : ∀ (l : List ShowRec) (k : Nat), k ≤ l.length →
      ∃ sub, sub.Sublist l ∧ (sample l k).Perm sub)
    (hpool : (env.showsPool.map ShowRec.seriesId).Nodup) :
    (∀ sid sn, Event.searchSeason sid sn ∈
      (process_missing_seasons_packs_mode env mo sf te hunt cwd cwa sortf
        shuffle allowed).2 →
      env.isProcessed (seasonKeyStr sid sn) = false) ∧
    ((process_missing_seasons_packs_mode env mo sf te hunt cwd cwa sortf
      shuffle allowed).2.filterMap seasonKeyOfEvent).Nodup ∧
    (∀ sid ids, Event.searchEpisodes sid ids ∈
      (process_missing_shows_mode env sf te hunt dd cwd cwa sample
        allowed).2 →
      env.isProcessed (toString sid) = false) ∧
    ((process_missing_shows_mode env sf te hunt dd cwd cwa sample
      allowed).2.filterMap showKeyOfEvent).Nodup := by
  refine ⟨?_, ?_, ?_, ?_⟩
  · intro sid sn hmem
    simp only [process_missing_seasons_packs_mode] at hmem
    repeat' split at hmem
    all_goals first
    | (simp at hmem; done)
    | (have hkey := List.mem_filterMap.mpr
        ⟨Event.searchSeason sid sn, hmem, (rfl :
          seasonKeyOfEvent (Event.searchSeason sid sn) = some (sid, sn))⟩
       have hsub := (missingSeasonsLoop_keys_sublist env te cwd cwa hunt
         _ 0 0 false).subset hkey
       obtain ⟨s, hsmem, hskey⟩ := List.mem_map.mp hsub
       have h1 := (hshuffle _).mem_iff.mp hsmem
       have h2 := (List.mem_filter.mp h1).2
       have h3 : env.isProcessed
           (seasonKeyStr s.seriesId s.seasonNumber) = false := by
         simpa using h2
       obtain ⟨he1, he2⟩ := Prod.mk.injEq _ _ _ _ |>.mp hskey
       rwa [he1, he2] at h3)
  · simp only [process_missing_seasons_packs_mode]
    repeat' split
    all_goals first
    | (simp; done)
    | (refine List.Nodup.sublist
        (missingSeasonsLoop_keys_sublist env te cwd cwa hunt _ 0 0 false) ?_
       refine ((hshuffle _).map _).nodup_iff.mpr ?_
       refine List.Nodup.sublist ((List.filter_sublist _).map _) ?_
       exact ((hsort _).map _).nodup_iff.mpr (groupSeasons_keys_nodup mo _))
  · intro sid ids hmem
    simp only [process_missing_shows_mode] at hmem
    repeat' split at hmem
    all_goals first
    | (simp at hmem; done)
    | (have hkey := List.mem_filterMap.mpr
        ⟨Event.searchEpisodes sid ids, hmem, (rfl :
          showKeyOfEvent (Event.searchEpisodes sid ids) = some sid)⟩
       have hsub := (missingShowsLoop_keys_sublist env sf te dd cwd cwa
         _ 0 false).subset hkey
       obtain ⟨sh, hshmem, hshkey⟩ := List.mem_map.mp hsub
       obtain ⟨sub, hsubl, hperm⟩ := hsample _ _ (Nat.min_le_left _ _)
       have h1 : sh ∈ sub := hperm.mem_iff.mp hshmem
       have h2 := hsubl.subset h1
       have h3 := (List.mem_filter.mp h2).2
       have h4 : env.isProcessed (toString sh.seriesId) = false := by
         simpa using h3
       rwa [hshkey] at h4)
  · simp only [process_missing_shows_mode]
    repeat' split
    all_goals first
    | (simp; done)
    | (refine List.Nodup.sublist
        (missingShowsLoop_keys_sublist env sf te dd cwd cwa _ 0 false) ?_
       obtain ⟨sub, hsubl, hperm⟩ := hsample _ _ (Nat.min_le_left _ _)
       refine (hperm.map ShowRec.seriesId).nodup_iff.mpr ?_
       refine List.Nodup.sublist (hsubl.map ShowRec.seriesId) ?_
       refine List.Nodup.sublist ((List.filter_sublist _).map _) ?_
       exact List.Nodup.sublist ((List.filter_sublist _).map _) hpool)

/-- Concrete episode used by the C5 and C9 witnesses: series 7,
season 2, aired in the past. -/
def c9ep : Episode := ⟨3, some 7, some 2, .parsed 5, true, true, "e", "t"⟩

/-- Concrete show used by the C5 witness. -/
def c5show : ShowRec := ⟨7, "t", [⟨some 2, [c9ep]⟩]⟩

/-- Concrete collaborator environment with one fetched episode and one
show, nothing processed, no stop, quota fine, dispatches succeeding
with command id 42 and waits succeeding. -/
def c9env : RunEnv :=
  ⟨[c9ep], [c5show], 100, fun _ => false, fun _ => false,
   fun _ => some false, fun _ => some 42, fun _ => some 42, fun _ => true⟩

/-- Witness for C5 at the concrete environment: the dispatched season
keys and show ids of the two cited modes are duplicate-free. -/
theorem C5_processed_id_dedup_witness :
    ((process_missing_seasons_packs_mode c9env true true true 5 1 600 id
      id [7]).2.filterMap seasonKeyOfEvent).Nodup ∧
    ((process_missing_shows_mode c9env true true 5 0 1 600
      (fun l k => l.take k) [7]).2.filterMap showKeyOfEvent).Nodup := by
  have h := C5_processed_id_dedup c9env true true true 5 0 1 600 id id
    (fun l k => l.take k) [7]
    (fun l => List.Perm.refl l) (fun l => List.Perm.refl l)
    (fun l k _ => ⟨l.take k, List.take_sublist k l, List.Perm.refl _⟩)
    (by decide)
  exact ⟨h.2.1, h.2.2.2⟩

/-- Dispatch events start a new per-candidate segment. -/
def isDispatchEvent : Event → Bool
  | .searchSeason _ _ => true
  | .searchEpisodes _ _ => true
  | _ => false

/-- Rank of each operation in the order claimed by the spec sentence
under test for C9: dispatch, then tag, then history log, then
statistics, then poll. `add_processed_id` calls are unconstrained. -/
def claimRank : Event → Option Nat
  | .searchSeason _ _ => some 0
  | .searchEpisodes _ _ => some 0
  | .tagSeries _ => some 1
  | .logHistory _ => some 2
  | .statIncrement => some 3
  | .poll _ => some 4
  | .addProcessed _ => none

/-- Rank of each operation in the order the upgrade modes actually
follow: dispatch, then poll, then tag, then history log, then
statistics. -/
def upgradeRank : Event → Option Nat
  | .searchSeason _ _ => some 0
  | .searchEpisodes _ _ => some 0
  | .poll _ => some 1
  | .tagSeries _ => some 2
  | .logHistory _ => some 3
  | .statIncrement => some 4
  | .addProcessed _ => none

/-- One step of the segment-order checker. The state is the rank of
the last ranked event of the current candidate segment (`none` before
the first dispatch). A dispatch starts a new segment; a ranked
non-dispatch event must not decrease the rank; an unranked event is
skipped; a non-dispatch event before any dispatch is an ordering
violation. -/
def segStep (rank : Event → Option Nat) (cur : Option Nat) (e : Event) :
    Option (Option Nat) :=
  if isDispatchEvent e then some (rank e)
  else
    match cur with
    | none => none
    | some c =>
      match rank e with
      | none => some (some c)
      | some r => if c ≤ r then some (some r) else none

/-- Runs the segment-order checker over a trace. -/
def segRun (rank : Event → Option Nat) : Option Nat → List Event →
    Option (Option Nat)
  | cur, [] => some cur
  | cur, e :: rest =>
    match segStep rank cur e with
    | none => none
    | some cur2 => segRun rank cur2 rest

/-- Decides whether a trace decomposes into per-candidate segments,
each opened by a dispatch, whose ranked operations appear in
nondecreasing rank order. -/
def segmentedOrdered (rank : Event → Option Nat) (tr : List Event) : Bool :=
  (segRun rank none tr).isSome

theorem segRun_append (rank : Event → Option Nat) :
    ∀ (a b : List Event) (cur : Option Nat),
      segRun rank cur (a ++ b) =
        match segRun rank cur a with
        | none => none
        | some c => segRun rank c b := by
  intro a
  induction a with
  | nil => intro b cur; rfl
  | cons e t ih =>
    intro b cur
    simp only [List.cons_append, segRun]
    cases segStep rank cur e with
    | none => rfl
    | some cur2 => exact ih b cur2

theorem segRun_replicate_stat (n c : Nat) (hc : c ≤ 3) (b : List Event) :
    segRun claimRank (some c) (List.replicate n Event.statIncrement ++ b) =
      segRun claimRank (some (if n = 0 then c else 3)) b := by
  induction n generalizing c with
  | zero => simp
  | succ n ih =>
    have hstep : segStep claimRank (some c) Event.statIncrement =
        some (some 3) := by
      simp [segStep, isDispatchEvent, claimRank, hc]
    rw [List.replicate_succ, List.cons_append]
    simp only [segRun, hstep]
    rw [ih 3 (le_refl 3)]
    simp

theorem segRun_flatMap_addStat (eps : List Episode) (c : Nat) (hc : c ≤ 4)
    (b : List Event) :
    segRun upgradeRank (some c)
      (eps.flatMap (fun ep =>
        [Event.addProcessed (toString ep.epId), Event.statIncrement]) ++ b) =
      segRun upgradeRank (some (if eps = [] then c else 4)) b := by
  induction eps generalizing c with
  | nil => simp
  | cons ep t ih =>
    have h1 : segStep upgradeRank (some c)
        (Event.addProcessed (toString ep.epId)) = some (some c) := by
      simp [segStep, isDispatchEvent, upgradeRank]
    have h2 : segStep upgradeRank (some c) Event.statIncrement =
        some (some 4) := by
      simp [segStep, isDispatchEvent, upgradeRank, hc]
    rw [List.flatMap_cons]
    simp only [List.cons_append, List.append_assoc, List.nil_append,
      List.append_eq, segRun, h1, h2]
    rw [ih 4 (le_refl 4)]
    simp

theorem segRun_replicate_stat_nil (n c : Nat) (hc : c ≤ 3) :
    segRun claimRank (some c) (List.replicate n Event.statIncrement) =
      some (some (if n = 0 then c else 3)) := by
  have h := segRun_replicate_stat n c hc []
  simpa [segRun] using h

theorem segRun_flatMap_addStat_nil (eps : List Episode) (c : Nat)
    (hc : c ≤ 4) :
    segRun upgradeRank (some c)
      (eps.flatMap (fun ep =>
        [Event.addProcessed (toString ep.epId), Event.statIncrement])) =
      some (some (if eps = [] then c else 4)) := by
  have h := segRun_flatMap_addStat eps c hc []
  simpa [segRun] using h

theorem missingSeasonsLoop_ordered (env : RunEnv) (te : Bool)
    (cwd cwa hunt : Int) :
    ∀ (l : List SeasonInfo) (i pc : Nat) (pa : Bool) (cur : Option Nat),
      (segRun claimRank cur
        (missingSeasonsLoop env te cwd cwa hunt l i pc pa).2).isSome =
        true := by
  intro l
  induction l with
  | nil => intro i pc pa cur; simp [missingSeasonsLoop, segRun]
  | cons s rest ih =>
    intro i pc pa cur
    simp only [missingSeasonsLoop]
    split
    · simp [segRun]
    · split
      · simp [segRun]
      · split
        · simp [segRun]
        · split
          case _ cid hsr =>
            try dsimp only
            cases te <;>
              by_cases hcw : (0 < cwd ∧ 0 < cwa) <;>
              · simp only [hcw, if_true, if_false, and_self,
                  Bool.false_eq_true, List.cons_append, List.nil_append,
                  List.append_assoc, List.append_eq, segRun, segStep,
                  isDispatchEvent, claimRank,
                  show ((0 : Nat) ≤ 1) = True by simp,
                  show ((0 : Nat) ≤ 2) = True by simp,
                  show ((1 : Nat) ≤ 2) = True by simp]
                rw [segRun_append, segRun_replicate_stat_nil _ 2 (by omega)]
                by_cases hn : s.count = 0 <;>
                  simp [hn, segRun, segStep, isDispatchEvent, claimRank, ih]
          case _ hsr =>
            try dsimp only
            simp [segRun, segStep, isDispatchEvent, claimRank, ih]

theorem upgradeSeasonsLoop_ordered (env : RunEnv) (te : Bool)
    (cwd cwa : Int) :
    ∀ (l : List AvailSeason) (i : Nat) (pa : Bool) (cur : Option Nat),
      (segRun upgradeRank cur
        (upgradeSeasonsLoop env te cwd cwa l i pa).2).isSome = true := by
  intro l
  induction l with
  | nil => intro i pa cur; simp [upgradeSeasonsLoop, segRun]
  | cons s rest ih =>
    intro i pa cur
    simp only [upgradeSeasonsLoop]
    split
    · simp [segRun]
    · split
      · simp [segRun]
      · split
        case _ cid hsr =>
          split
          case isTrue hcw =>
            split
            case isTrue hok =>
              try dsimp only
              cases te <;>
                · simp only [if_true, if_false, and_self,
                    Bool.false_eq_true, List.cons_append, List.nil_append,
                    List.append_assoc, List.append_eq, segRun, segStep,
                    isDispatchEvent, upgradeRank,
                    show ((0 : Nat) ≤ 1) = True by simp,
                    show ((0 : Nat) ≤ 2) = True by simp,
                    show ((0 : Nat) ≤ 3) = True by simp,
                    show ((1 : Nat) ≤ 2) = True by simp,
                    show ((1 : Nat) ≤ 3) = True by simp,
                    show ((2 : Nat) ≤ 3) = True by simp]
                  rw [segRun_append,
                    segRun_flatMap_addStat_nil _ 3 (by omega)]
                  by_cases hn : s.eps = [] <;>
                    simp [hn, segRun, segStep, isDispatchEvent, upgradeRank,
                      ih]
            case isFalse hok =>
              try dsimp only
              simp [segRun, segStep, isDispatchEvent, upgradeRank, ih]
          case isFalse hcw =>
            rw [if_pos rfl]
            try dsimp only
            cases te <;>
              · simp only [if_true, if_false, and_self,
                  Bool.false_eq_true, List.cons_append, List.nil_append,
                  List.append_assoc, List.append_eq, segRun, segStep,
                  isDispatchEvent, upgradeRank,
                  show ((0 : Nat) ≤ 1) = True by simp,
                  show ((0 : Nat) ≤ 2) = True by simp,
                  show ((0 : Nat) ≤ 3) = True by simp,
                  show ((1 : Nat) ≤ 2) = True by simp,
                  show ((1 : Nat) ≤ 3) = True by simp,
                  show ((2 : Nat) ≤ 3) = True by simp]
                rw [segRun_append,
                  segRun_flatMap_addStat_nil _ 3 (by omega)]
                by_cases hn : s.eps = [] <;>
                  simp [hn, segRun, segStep, isDispatchEvent, upgradeRank,
                    ih]
        case _ hsr =>
          try dsimp only
          simp [segRun, segStep, isDispatchEvent, upgradeRank, ih]

/-- C9 counterexample: in the upgrade season mode the poll
(`wait_for_command`, called at upgrade.py line 218) runs immediately
after the dispatch and before tagging, history logging and the
statistics calls. On a concrete one-candidate environment the produced
trace contains a poll followed by a tag, so the dispatch-tag-log-stat-
poll order claimed for every invocation is violated, while the
dispatch-poll-tag-log-stat checker accepts the same trace. -/
theorem C9_counterexample_upgrade_polls_before_tag :
    segmentedOrdered claimRank
      (process_upgrade_seasons_mode c9env true 1 1 1 id [7]).2 = false ∧
    Event.poll 42 ∈ (process_upgrade_seasons_mode c9env true 1 1 1 id [7]).2 ∧
    Event.tagSeries 7 ∈
      (process_upgrade_seasons_mode c9env true 1 1 1 id [7]).2 ∧
    segmentedOrdered upgradeRank
      (process_upgrade_seasons_mode c9env true 1 1 1 id [7]).2 = true := by
  refine ⟨by decide, by decide, by decide, by decide⟩

/-- C9 (amended): within one invocation candidates are processed
strictly sequentially, each successfully dispatched candidate's
operations forming one contiguous segment; in the missing season-pack
mode the per-candidate order is dispatch, tag, history log,
statistics, poll, while in the upgrade season mode the poll runs
immediately after dispatch, before tag, history log and statistics. -/
theorem C9_amended_candidate_operation_order (env : RunEnv)
    (mo sf te : Bool) (hunt cwd cwa : Int)
    (sortf shuffle : List SeasonInfo → List SeasonInfo)
    (shuffleAvail : List AvailSeason → List AvailSeason)
    (allowed : List Nat) :
    segmentedOrdered claimRank
      (process_missing_seasons_packs_mode env mo sf te hunt cwd cwa sortf
        shuffle allowed).2 = true ∧
    segmentedOrdered upgradeRank
      (process_upgrade_seasons_mode env te hunt cwd cwa shuffleAvail
        allowed).2 = true := by
  constructor
  · simp only [process_missing_seasons_packs_mode]
    repeat' split
    all_goals first
    | rfl
    | exact missingSeasonsLoop_ordered env te cwd cwa hunt _ 0 0 false none
  · simp only [process_upgrade_seasons_mode]
    repeat' split
    all_goals first
    | rfl
    | exact upgradeSeasonsLoop_ordered env te cwd cwa _ 1 false none

end Huntarr
